import Mathlib

/-!
Shallow embedding of `geonode/geoserver/helpers.py`.

The module reconciles an external GeoServer catalog with local GeoNode
records.  Pure data and control flow are translated directly; external
collaborators (the gsconfig catalog client, the Django ORM, the WPS
statistics service) are modelled as explicit state plus boolean/Except
oracles supplied as parameters.  Wall-clock durations, logging and console
output are not modelled.
-/

set_option autoImplicit false
set_option maxHeartbeats 1000000
set_option maxRecDepth 16384

/-- A Python scalar as it appears in the `enabled` / `advertised` fields of a
gsconfig resource: a boolean, a string, or `None`. -/
inductive PyVal where
  | pBool : Bool → PyVal
  | pStr : String → PyVal
  | pNone : PyVal
deriving DecidableEq, Repr

/-- Python substring containment (`nee in hay`). -/
def strContains (hay nee : String) : Bool :=
  (List.range (hay.length + 1)).any
    (fun i => ((hay.toList.drop i).take nee.toList.length) == nee.toList)

/-- Python `s or default` for optional strings: `None` and `""` are falsy. -/
def pyOrS (v : Option String) (d : String) : String :=
  match v with
  | some t => if t == "" then d else t
  | none => d

/-- A gsconfig store handle: `store.name`, `store.workspace.name`,
`store.resource_type`, `store.connection_parameters`. -/
structure StoreRef where
  name : String
  workspace : String
  resource_type : String
  connection_parameters : List (String × String)
deriving DecidableEq, Repr

/-- A gsconfig resource handle as consumed by `gs_slurp` and
`cascading_delete`: identity, backing store, flags and metadata.
`resource.workspace` in the source is `resource.store.workspace`. -/
structure GsResource where
  name : String
  store : StoreRef
  enabled : PyVal
  advertised : PyVal
  title : Option String
  abstract : Option String
deriving DecidableEq, Repr

/-- A local GeoNode `Layer` row, with the fields populated by the
`get_or_create` defaults of `gs_slurp` (lines 335-344).  `uuid` is drawn
from a deterministic counter supply standing in for `uuid.uuid4()`. -/
structure LayerRec where
  name : String
  workspace : String
  store : String
  storeType : String
  typename : String
  title : String
  abstract : String
  owner : Option String
  uuid : Nat
deriving DecidableEq, Repr

/-- Options of `gs_slurp` (signature at line 267).  `verbosity` and
`console` only affect printing and are not modelled. -/
structure SlurpOpts where
  ignore_errors : Bool
  owner : Option String
  workspace : Option String
  store : Option String
  filter : Option String
  skip_unadvertised : Bool
  remove_deleted : Bool
deriving DecidableEq, Repr

/-- The external catalog as seen through `Catalog.get_workspace`,
`Catalog.get_store` and `Catalog.get_resources`. -/
structure GsCatalog where
  workspaces : List String
  stores : List StoreRef
  resources : List GsResource
deriving DecidableEq, Repr

/-- The Python local variable `workspace` of `gs_slurp`: `None`, a plain
string, or a `Workspace` object (carrying its name). -/
inductive WsVar where
  | wvNone : WsVar
  | wvStr : String → WsVar
  | wvObj : String → WsVar
deriving DecidableEq, Repr

/-- The Python local variable `store` of `gs_slurp`: `None`, a plain
string, or a `CoverageStore`/`DataStore` object. -/
inductive StoreVar where
  | svNone : StoreVar
  | svStr : String → StoreVar
  | svObj : StoreRef → StoreVar
deriving DecidableEq, Repr

/-- `k.enabled == "true"` (lines 302 and 308). -/
def enabledOk : PyVal → Bool
  | .pStr s => s == "true"
  | _ => false

/-- `k.advertised == "true" or k.advertised == True or k.advertised is None`
(lines 303 and 309). -/
def advOk : PyVal → Bool
  | .pStr s => s == "true"
  | .pBool b => b
  | .pNone => true

/-- Lines 279-296 of `gs_slurp`: resolve the target resource set and the
final values of the local variables `workspace` and `store` after scope
resolution.  The gsconfig collaborator is modelled as: `get_workspace`
succeeds iff the name is listed; `get_store` returns the first matching
store or `None`; `get_resources(store=None)` (the silent fall-through when
a store lookup misses) lists every resource. -/
def resolveScope (cat : GsCatalog) (opts : SlurpOpts) :
    Except String (List GsResource × WsVar × StoreVar) :=
  match opts.workspace with
  | some wname =>
    if cat.workspaces.contains wname then
      match opts.store with
      | some sname =>
        match cat.stores.find? (fun s => s.name == sname && s.workspace == wname) with
        | some st =>
            .ok (cat.resources.filter (fun r => decide (r.store = st)), .wvObj wname, .svObj st)
        | none => .ok (cat.resources, .wvObj wname, .svNone)
      | none =>
          .ok (cat.resources.filter (fun r => r.store.workspace == wname), .wvObj wname, .svNone)
    else .error "Workspace does not exist in the GeoServer instance"
  | none =>
    match opts.store with
    | some sname =>
      match cat.stores.find? (fun s => s.name == sname) with
      | some st =>
          .ok (cat.resources.filter (fun r => decide (r.store = st)), .wvNone, .svObj st)
      | none => .ok (cat.resources, .wvNone, .svNone)
    | none => .ok (cat.resources, .wvNone, .svNone)

/-- Lines 297-303: the `remove_deleted` comparison snapshot, taken from the
resolved resource list before the name filter, restricted to enabled and,
when `skip_unadvertised` is set, advertised-or-unknown resources. -/
def snapshotFor (skip : Bool) (resources : List GsResource) : List GsResource :=
  let s := resources.filter (fun k => enabledOk k.enabled)
  if skip then s.filter (fun k => advOk k.advertised) else s

/-- Line 304: `if filter:` guard folded into a predicate — a `None` filter
and the falsy empty string let every resource through, otherwise
`filter in k.name`. -/
def nameFilterOkB (f : Option String) (k : GsResource) : Bool :=
  match f with
  | some s => if s == "" then true else strContains k.name s
  | none => true

/-- Lines 304-309: the working resource set of the upsert pass: name
substring filter, then enabled, then advertised. -/
def filteredResources (opts : SlurpOpts) (resources : List GsResource) : List GsResource :=
  let r1 := resources.filter (nameFilterOkB opts.filter)
  let r2 := r1.filter (fun k => enabledOk k.enabled)
  if opts.skip_unadvertised then r2.filter (fun k => advOk k.advertised) else r2

/-- The `defaults` dict of `Layer.objects.get_or_create` (lines 335-344). -/
def mkLayer (owner : Option String) (r : GsResource) (u : Nat) : LayerRec :=
  { name := r.name
    workspace := r.store.workspace
    store := r.store.name
    storeType := r.store.resource_type
    typename := r.store.workspace ++ ":" ++ r.name
    title := pyOrS r.title "No title provided"
    abstract := pyOrS r.abstract "No abstract provided"
    owner := owner
    uuid := u }

/-- One per-layer entry of the `output['layers']` / `output['deleted_layers']`
report.  The captured exception object is modelled by the fixed string
`"exception"`. -/
structure LayerInfo where
  name : String
  status : String
  error : Option String
deriving DecidableEq, Repr

/-- `Exception('Failed to process %s' % resource.name, e)` (line 357). -/
def failMsg (r : GsResource) : String := "Failed to process " ++ r.name

def failInfo (r : GsResource) : LayerInfo := ⟨r.name, "failed", some "exception"⟩

def createdInfo (r : GsResource) : LayerInfo := ⟨r.name, "created", none⟩

def updatedInfo (r : GsResource) : LayerInfo := ⟨r.name, "updated", none⟩

/-- The mutable state threaded through the upsert loop of `gs_slurp`
(lines 330-376): the local `Layer` table, the uuid supply, the accumulated
report entries and counters, and the loop-rebound local variables `store`
and `workspace` (lines 332-333). -/
structure UpState where
  layers : List LayerRec
  ctr : Nat
  infos : List LayerInfo
  created : Nat
  updated : Nat
  failed : Nat
  storeVar : StoreVar
  wsVar : WsVar
deriving DecidableEq, Repr

/-- Lines 330-376: the upsert pass.  For each resource, the loop first
rebinds `store` and `workspace` to the resource's own store and workspace,
then runs `Layer.objects.get_or_create` keyed by name (inserting a fresh
row built from the resource when absent), then recomputes attributes;
`af r = true` models `set_attributes` raising for that resource.  On
failure the freshly inserted row persists (no transaction in the source);
with `ignore_errors` the item is recorded as failed, otherwise the run
aborts with the wrapping exception of line 357. -/
def upsertStep (opts : SlurpOpts) (af : GsResource → Bool) (s : UpState) (r : GsResource) :
    Except String UpState :=
  let s0 : UpState := { s with storeVar := .svObj r.store, wsVar := .wvObj r.store.workspace }
  let hit := s0.layers.any (fun l => l.name == r.name)
  let s1 : UpState :=
    if hit then s0
    else { s0 with layers := s0.layers ++ [mkLayer opts.owner r s0.ctr], ctr := s0.ctr + 1 }
  if af r then
    if opts.ignore_errors then
      .ok { s1 with infos := s1.infos ++ [failInfo r], failed := s1.failed + 1 }
    else .error (failMsg r)
  else
    if hit then
      .ok { s1 with infos := s1.infos ++ [updatedInfo r], updated := s1.updated + 1 }
    else
      .ok { s1 with infos := s1.infos ++ [createdInfo r], created := s1.created + 1 }

def upsertList (opts : SlurpOpts) (af : GsResource → Bool) :
    List GsResource → UpState → Except String UpState
  | [], s => .ok s
  | r :: rs, s =>
    match upsertStep opts af s r with
    | .error e => .error e
    | .ok s1 => upsertList opts af rs s1

/-- The workspace filter of the deletion-pass query (lines 380-382): a
`Workspace` object filters on its name, a plain string on itself, `None`
not at all. -/
def wsFilterOf : WsVar → Option String
  | .wvObj n => some n
  | .wvStr s => some s
  | .wvNone => none

/-- The store filter of the deletion-pass query (lines 383-385): a
`CoverageStore`/`DataStore` object filters on its name, a plain string on
itself, `None` not at all. -/
def storeFilterOf : StoreVar → Option String
  | .svObj st => some st.name
  | .svStr s => some s
  | .svNone => none

/-- Lines 379-385: the local `Layer` query of the deletion pass. -/
def deletionQuery (st : List LayerRec) (wsF stF : Option String) : List LayerRec :=
  let q := match wsF with
    | some w => st.filter (fun l => l.workspace == w)
    | none => st
  match stF with
  | some t => q.filter (fun l => l.store == t)
  | none => q

/-- Lines 398-399: a snapshot resource matches a local layer when name,
workspace name and store name all agree. -/
def fullMatch (l : LayerRec) (r : GsResource) : Bool :=
  l.name == r.name && l.workspace == r.store.workspace && l.store == r.store.name

/-- Lines 392-404: the layers of the deletion-pass query with no full match
in the comparison snapshot. -/
def deletionCandidates (q : List LayerRec) (snap : List GsResource) : List LayerRec :=
  q.filter (fun l => !(snap.any (fullMatch l)))

/-- Lines 411-440: delete each candidate row (ratings/comments/tags cleanup
and the pre-delete signal plumbing have no observable effect on the
modelled state).  `df l = true` models `layer.delete()` raising, recorded
as `delete_failed`; on success the row is removed and the deleted counter
incremented.  Returns the final table, the `deleted_layers` report and the
deleted count. -/
def deletePass (df : LayerRec → Bool) (st : List LayerRec) :
    List LayerRec → List LayerRec × List LayerInfo × Nat
  | [] => (st, [], 0)
  | l :: ls =>
    if df l then
      let rest := deletePass df st ls
      (rest.1, ⟨l.name, "delete_failed", some "exception"⟩ :: rest.2.1, rest.2.2)
    else
      let rest := deletePass df (st.erase l) ls
      (rest.1, ⟨l.name, "delete_succeeded", none⟩ :: rest.2.1, rest.2.2 + 1)

/-- The `output['stats']` dict (lines 320-325).  `duration_sec` is wall
clock and not modelled. -/
structure SlurpStats where
  failed : Nat
  updated : Nat
  created : Nat
  deleted : Nat
deriving DecidableEq, Repr

/-- The report returned by `gs_slurp` (lines 319-328). -/
structure SlurpOutput where
  stats : SlurpStats
  layers : List LayerInfo
  deleted_layers : List LayerInfo
deriving DecidableEq, Repr

/-- Result of a `gs_slurp` run: the final local `Layer` table, the final
uuid-supply counter, and the report. -/
structure SlurpResult where
  layers : List LayerRec
  ctr : Nat
  output : SlurpOutput
deriving DecidableEq, Repr

def dummySlurpResult : SlurpResult := ⟨[], 0, ⟨⟨0, 0, 0, 0⟩, [], []⟩⟩

/-- Lines 267-445: `gs_slurp`.  `af` is the `set_attributes` failure oracle
and `df` the `layer.delete()` failure oracle; `st0`/`ctr0` are the local
`Layer` table and the uuid supply.  The deletion pass queries local layers
scoped by `workspace_for_delete_compare` (saved before the loop, line 299)
and by the *current* value of the local variable `store` — which the upsert
loop rebound to the last processed resource's store (line 332). -/
def gs_slurp (af : GsResource → Bool) (df : LayerRec → Bool) (cat : GsCatalog)
    (opts : SlurpOpts) (st0 : List LayerRec) (ctr0 : Nat) : Except String SlurpResult :=
  match resolveScope cat opts with
  | .error e => .error e
  | .ok (resources, wsV, stV) =>
    let wsCompare := wsV
    let fres := filteredResources opts resources
    match upsertList opts af fres ⟨st0, ctr0, [], 0, 0, 0, stV, wsV⟩ with
    | .error e => .error e
    | .ok s =>
      if opts.remove_deleted then
        let snapshot := snapshotFor opts.skip_unadvertised resources
        let q := deletionQuery s.layers (wsFilterOf wsCompare) (storeFilterOf s.storeVar)
        let cands := deletionCandidates q snapshot
        let d := deletePass df s.layers cands
        .ok ⟨d.1, s.ctr, ⟨⟨s.failed, s.updated, s.created, d.2.2⟩, s.infos, d.2.1⟩⟩
      else
        .ok ⟨s.layers, s.ctr, ⟨⟨s.failed, s.updated, s.created, 0⟩, s.infos, []⟩⟩

/-- Line 59: the six foreground colors of the style palette. -/
def _foregrounds : List String :=
  ["#ffbbbb", "#bbffbb", "#bbbbff", "#ffffbb", "#bbffff", "#ffbbff"]

/-- Line 60: the six background colors of the style palette. -/
def _backgrounds : List String :=
  ["#880000", "#008800", "#000088", "#888800", "#008888", "#880088"]

/-- Line 61: the five marker shapes of the style palette. -/
def _marks : List String := ["square", "circle", "cross", "x", "triangle"]

/-- Line 62: `izip(cycle(_foregrounds), cycle(_backgrounds), cycle(_marks))`,
as the function sending a call index to the triple produced by that call:
the three cyclic sequences advance in lockstep, each wrapping at its own
list length. -/
def _style_contexts (n : Nat) : String × String × String :=
  ((_foregrounds[n % _foregrounds.length]?).getD "",
   (_backgrounds[n % _backgrounds.length]?).getD "",
   (_marks[n % _marks.length]?).getD "")

/-- Line 63. -/
def _default_style_names : List String := ["point", "line", "polygon", "raster"]

/-- Lines 65-88: wrap a symbolizer snippet into a full SLD document, with
the layer name interpolated for `%(name)s` (XML boilerplate whitespace
condensed; the attribute and element structure is kept). -/
def _add_sld_boilerplate (name symbolizer : String) : String :=
  "<StyledLayerDescriptor version=\"1.0.0\"><NamedLayer><Name>" ++ name ++
  "</Name><UserStyle><Name>" ++ name ++ "</Name><Title>" ++ name ++
  "</Title><FeatureTypeStyle><Rule>" ++ symbolizer ++
  "</Rule></FeatureTypeStyle></UserStyle></NamedLayer></StyledLayerDescriptor>"

/-- Lines 90-94: the raster symbolizer — it contains no `%(fg)s`, `%(bg)s`
or `%(mark)s` slot, so the rendered document ignores the palette triple. -/
def _raster_template : String := "<RasterSymbolizer><Opacity>1.0</Opacity></RasterSymbolizer>"

/-- Lines 96-106. -/
def _polygon_template (fg bg : String) : String :=
  "<PolygonSymbolizer><Fill><CssParameter name=\"fill\">" ++ bg ++
  "</CssParameter></Fill><Stroke><CssParameter name=\"stroke\">" ++ fg ++
  "</CssParameter><CssParameter name=\"stroke-width\">0.7</CssParameter></Stroke></PolygonSymbolizer>"

/-- Lines 108-124 (the line template closes and reopens the rule to paint a
casing plus a center line). -/
def _line_template (fg bg : String) : String :=
  "<LineSymbolizer><Stroke><CssParameter name=\"stroke\">" ++ bg ++
  "</CssParameter><CssParameter name=\"stroke-width\">3</CssParameter></Stroke></LineSymbolizer>" ++
  "</Rule></FeatureTypeStyle><FeatureTypeStyle><Rule>" ++
  "<LineSymbolizer><Stroke><CssParameter name=\"stroke\">" ++ fg ++
  "</CssParameter></Stroke></LineSymbolizer>"

/-- Lines 126-141. -/
def _point_template (fg bg mark : String) : String :=
  "<PointSymbolizer><Graphic><Mark><WellKnownName>" ++ mark ++
  "</WellKnownName><Fill><CssParameter name=\"fill\">" ++ bg ++
  "</CssParameter></Fill><Stroke><CssParameter name=\"stroke\">" ++ fg ++
  "</CssParameter></Stroke></Mark><Size>10</Size></Graphic></PointSymbolizer>"

/-- The key set of the `_style_templates` dict (lines 143-148). -/
def _style_templates_keys : List String := ["raster", "polygon", "line", "point"]

/-- `_style_templates[tname] % dict(name, fg, bg, mark)` for a key of the
dict. -/
def renderStyleTemplate (tname lname fg bg mark : String) : String :=
  if tname == "raster" then _add_sld_boilerplate lname _raster_template
  else if tname == "polygon" then _add_sld_boilerplate lname (_polygon_template fg bg)
  else if tname == "line" then _add_sld_boilerplate lname (_line_template fg bg)
  else _add_sld_boilerplate lname (_point_template fg bg mark)

/-- A gsconfig style object: its name and its SLD body. -/
structure GsStyleObj where
  name : String
  body : String
deriving DecidableEq, Repr

/-- A gsconfig layer object as used by `fixup_style`, `cascading_delete`
and `set_styles`: `styles` is the alternate-style list (entries may be
`None`), `default_style` the default style slot. -/
structure GsLayerObj where
  name : String
  default_style : Option GsStyleObj
  styles : List (Option GsStyleObj)
deriving DecidableEq, Repr

/-- Lines 150-151: `_punc.sub("_", ...)` replaces every dot and colon in the
workspace-qualified resource name with an underscore. -/
def _style_name (resource : GsResource) : String :=
  String.mk ((resource.store.workspace ++ ":" ++ resource.name).toList.map
    (fun c => if c == '.' || c == ':' then '_' else c))

/-- Lines 153-167: `get_sld_for`.  The global generator cursor is threaded
explicitly as `ctr`; the generator is advanced exactly when the chosen
template name is a key of `_style_templates`. -/
def get_sld_for (ctr : Nat) (lyr : GsLayerObj) : Option String × Nat :=
  let name := match lyr.default_style with
    | some s => s.name
    | none => "point"
  if _style_templates_keys.contains name then
    let c := _style_contexts ctr
    (some (renderStyleTemplate name lyr.name c.1 c.2.1 c.2.2), ctr + 1)
  else (none, ctr)

/-- The Python local variable `style` of `fixup_style`: initially `None` or
the caller-supplied uploaded document.  The loop body rebinds it to the
return value of `cat.create_style` (line 182), which is `None` in gsconfig
— the source never uses that value and re-fetches the created style with
`cat.get_style(name)` at line 183 — so after the first creation the
variable holds `None` again. -/
inductive UpStyle where
  | noneV : UpStyle
  | uploadedV : String → UpStyle
deriving DecidableEq, Repr

/-- `style.read()` on whatever the `style` variable currently holds: an
uploaded document reads as its contents.  (`read()` on `None` never
executes: the source guards with `if style is None`.) -/
def readStyleVar : UpStyle → String
  | .noneV => ""
  | .uploadedV b => b

/-- Lines 169-186: the loop of `fixup_style` over the layers associated
with `resource`.  Modelled collaborator: `cat.create_style(name, sld)`
issues the creation request and returns `None` (gsconfig), so line 182
rebinds the `style` variable to `None`; `cat.get_style`/`cat.save`
(lines 183-185) resolve and persist the default style and have no further
observable effect here.  Accessing `lyr.default_style.name` on a layer with
no default style raises, hence the `Except`.  Returns the
`(style name, uploaded body)` pairs passed to `cat.create_style`, in order,
with the final `style` variable and palette cursor. -/
def fixupLoop (resource : GsResource) :
    List GsLayerObj → UpStyle → Nat →
    Except String (List (String × String) × UpStyle × Nat)
  | [], sv, ctr => .ok ([], sv, ctr)
  | lyr :: rest, sv, ctr =>
    match lyr.default_style with
    | none => .error "AttributeError: NoneType object has no attribute name"
    | some ds =>
      if _style_templates_keys.contains ds.name then
        let name := _style_name resource
        let rendered :=
          match sv with
          | .noneV =>
            let g := get_sld_for ctr lyr
            (g.1.getD "", g.2)
          | _ => (readStyleVar sv, ctr)
        match fixupLoop resource rest UpStyle.noneV rendered.2 with
        | .error e => .error e
        | .ok (outs, svF, ctrF) => .ok ((name, rendered.1) :: outs, svF, ctrF)
      else
        fixupLoop resource rest sv ctr

/-- The upload list produced by the `fixup_style` loop run with the `style`
variable holding `None`, read off `fixupLoop`: each qualifying layer
contributes the document freshly generated for it by `get_sld_for` at the
advancing palette cursor, under the punctuation-cleaned style name
(a non-qualifying layer contributes nothing and leaves the cursor alone;
the value at a layer with no default style is irrelevant — `fixupLoop`
raises there). -/
def fixupGenOuts (res : GsResource) : List GsLayerObj → Nat → List (String × String)
  | [], _ => []
  | lyr :: rest, ctr =>
    match lyr.default_style with
    | none => []
    | some ds =>
      if _style_templates_keys.contains ds.name then
        (_style_name res, (get_sld_for ctr lyr).1.getD "") ::
          fixupGenOuts res rest (get_sld_for ctr lyr).2
      else
        fixupGenOuts res rest ctr

/-- Outcome of the resource-resolution attempt of `cascading_delete`
(lines 190-209): normal, connection refused (soft no-op), or another
`EnvironmentError` (re-raised). -/
inductive ConnOutcome where
  | connOk : ConnOutcome
  | connRefused : ConnOutcome
  | connOtherError : ConnOutcome
deriving DecidableEq, Repr

/-- The external catalog as seen by `cascading_delete`. -/
structure CascCatalog where
  workspaces : List String
  resources : List GsResource
  layers : List GsLayerObj
deriving DecidableEq, Repr

/-- Python `str.split(sep)` for a single-character separator, by structural
recursion over the character list. -/
def splitCharAux (c : Char) : List Char → List Char → List String
  | [], acc => [String.mk acc.reverse]
  | x :: xs, acc =>
    if x == c then String.mk acc.reverse :: splitCharAux c xs []
    else splitCharAux c xs (x :: acc)

def splitColon (s : String) : List String := splitCharAux ':' s.toList []

/-- Lines 191-199: resolve the backing resource from a possibly
workspace-qualified (colon-separated) identifier.  A missing workspace or
missing resource yields `none` (soft no-op); an identifier with more than
one colon makes the two-target unpacking of line 192 raise. -/
def resolveCascResource (cat : CascCatalog) (layer_name : String) :
    Except String (Option GsResource) :=
  if strContains layer_name ":" then
    match splitColon layer_name with
    | [w, n] =>
      if cat.workspaces.contains w then
        .ok (cat.resources.find? (fun r => r.name == n && r.store.workspace == w))
      else .ok none
    | _ => .error "ValueError: unpack"
  else .ok (cat.resources.find? (fun r => r.name == layer_name))

/-- Observable catalog operations issued by `cascading_delete`, in program
order.  `tryDeleteStyle`/`tryDeleteResource`/`tryDeleteStore` carry whether
the request failed (failures are caught in the source). -/
inductive CascEvent where
  | deleteLayer : String → CascEvent
  | tryDeleteStyle : GsStyleObj → Bool → CascEvent
  | tryDeleteResource : String → Bool → CascEvent
  | reload : CascEvent
  | dropPostgisTable : String → CascEvent
  | tryDeleteStore : String → Bool → CascEvent
deriving DecidableEq, Repr

/-- Lines 221-230 (capture plus style loop, selection only): the styles
submitted for deletion are the non-`None` entries of
`lyr.styles + [lyr.default_style]` whose name is not a generic built-in
name. -/
def styleKeep (s? : Option GsStyleObj) : Option GsStyleObj :=
  match s? with
  | some s => if _default_style_names.contains s.name then none else some s
  | none => none

def styleAttempts (lyr : GsLayerObj) : List GsStyleObj :=
  (lyr.styles ++ [lyr.default_style]).filterMap styleKeep

/-- Lines 188-246: `cascading_delete`.  `conn` is the outcome of the
resolution attempt; `sfail s` models `cat.delete(s, purge=True)` raising
`FailedRequestError` (caught and logged); `resFail` models
`cat.delete(resource)` raising (caught, answered with `cat.reload()`);
`storeFail` models `cat.delete(store, recurse=True)` raising (caught and
logged).  Returns the trace of catalog operations: the style set is
captured from the layer object before `cat.delete(lyr)` is issued, and a
failing style deletion is recorded and skipped, never propagated. -/
def cascading_delete (conn : ConnOutcome) (sfail : GsStyleObj → Bool)
    (resFail storeFail : Bool) (cat : CascCatalog) (layer_name : String) :
    Except String (List CascEvent) :=
  match conn with
  | .connRefused => .ok []
  | .connOtherError => .error "EnvironmentError"
  | .connOk =>
    match resolveCascResource cat layer_name with
    | .error e => .error e
    | .ok none => .ok []
    | .ok (some resource) =>
      match cat.layers.find? (fun l => l.name == resource.name) with
      | none => .ok []
      | some lyr =>
        let store := resource.store
        let styleEvs := (styleAttempts lyr).map (fun s => CascEvent.tryDeleteStyle s (sfail s))
        let resEvs := CascEvent.tryDeleteResource resource.name resFail ::
          (if resFail then [CascEvent.reload] else [])
        let dbtype := (store.connection_parameters.find? (fun p => p.1 == "dbtype")).map
          (fun p => p.2)
        let storeEvs :=
          if store.resource_type == "dataStore" && dbtype == some "postgis" then
            [CascEvent.dropPostgisTable resource.name]
          else [CascEvent.tryDeleteStore store.name storeFail]
        .ok (CascEvent.deleteLayer lyr.name :: styleEvs ++ resEvs ++ storeEvs)

/-- The style-deletion attempts recorded in a `cascading_delete` trace. -/
def styleDeleteEvs (tr : List CascEvent) : List (GsStyleObj × Bool) :=
  tr.filterMap (fun e =>
    match e with
    | .tryDeleteStyle s b => some (s, b)
    | _ => none)

/-- Modelled from the spec: `LAYER_ATTRIBUTE_NUMERIC_DATA_TYPES`
(imported from `geonode.layers.enumerations`, which is not under src/) —
the fixed allow-list of numeric declared type names. -/
def LAYER_ATTRIBUTE_NUMERIC_DATA_TYPES : List String :=
  ["xsd:byte", "xsd:decimal", "xsd:double", "xsd:float", "xsd:int", "xsd:integer",
   "xsd:long", "xsd:negativeInteger", "xsd:nonNegativeInteger", "xsd:nonPositiveInteger",
   "xsd:positiveInteger", "xsd:short", "xsd:unsignedByte", "xsd:unsignedInt",
   "xsd:unsignedLong", "xsd:unsignedShort"]

/-- Lines 561-576: `is_layer_attribute_aggregable`. -/
def is_layer_attribute_aggregable (store_type field_name field_type : String) : Bool :=
  if store_type != "dataStore" then false
  else if !(LAYER_ATTRIBUTE_NUMERIC_DATA_TYPES.contains field_type) then false
  else if ["id", "identifier"].contains field_name.toLower then false
  else true

/-- The dict returned by `wps_execute_layer_attribute_statistics`
(consumed at lines 517-524). -/
structure StatsResult where
  Count : Int
  Min : Int
  Max : Int
  Average : Int
  Median : Int
  StandardDeviation : Int
  Sum : Int
  unique_values : Int
deriving DecidableEq, Repr

/-- A local GeoNode `Attribute` row.  `attribute_name` models the
`attribute` column (`attribute` is reserved in Lean); `last_stats_updated`
records whether the last-statistics timestamp was set. -/
structure AttrRec where
  attribute_name : String
  attribute_type : String
  count : Option Int
  min : Option Int
  max : Option Int
  average : Option Int
  median : Option Int
  stddev : Option Int
  sum : Option Int
  unique_values : Option Int
  last_stats_updated : Bool
  attribute_label : Option String
  visible : Bool
  display_order : Nat
deriving DecidableEq, Repr

/-- A fresh `Attribute` row as produced by
`Attribute.objects.get_or_create(layer, attribute, attribute_type)`:
statistics fields unset. -/
def newAttr (field ftype : String) : AttrRec :=
  ⟨field, ftype, none, none, none, none, none, none, none, none, false, none, true, 0⟩

/-- Lines 517-525: copy a statistics result into the row and stamp the
last-updated marker. -/
def withStats (a : AttrRec) (r : StatsResult) : AttrRec :=
  { a with
    count := some r.Count
    min := some r.Min
    max := some r.Max
    average := some r.Average
    median := some r.Median
    stddev := some r.StandardDeviation
    sum := some r.Sum
    unique_values := some r.unique_values
    last_stats_updated := true }

/-- Python `str.title()`: the first letter of each alphabetic run is
uppercased, the rest lowercased. -/
def pyTitleAux : List Char → Bool → List Char
  | [], _ => []
  | c :: cs, prevAlpha =>
    (if c.isAlpha then (if prevAlpha then c.toLower else c.toUpper) else c) ::
      pyTitleAux cs c.isAlpha

def pyTitle (s : String) : String := ⟨pyTitleAux s.toList false⟩

/-- Remote calls issued during attribute synchronization. -/
inductive AttrEvent where
  | wpsCall : String → String → AttrEvent
deriving DecidableEq, Repr

/-- Lines 579-592: `get_attribute_statistics`.  When the statistics service
is disabled in configuration the function returns `None` before any remote
call; otherwise `statsOf` models `wps_execute_layer_attribute_statistics`,
whose failure is logged and turned into `None`.  The second component is
the list of remote calls attempted. -/
def get_attribute_statistics (wps_enabled : Bool)
    (statsOf : String → String → Except String StatsResult)
    (layer_name field : String) : Option StatsResult × List AttrEvent :=
  if wps_enabled then
    match statsOf layer_name field with
    | .ok r => (some r, [.wpsCall layer_name field])
    | .error _ => (none, [.wpsCall layer_name field])
  else (none, [])

/-- Lines 513-516: the statistics request made for a freshly created row:
issued exactly when the field is aggregable (statistics fields are left
untouched otherwise). -/
def statsFor (wps_enabled : Bool)
    (statsOf : String → String → Except String StatsResult) (layer : LayerRec)
    (field ftype : String) : Option StatsResult × List AttrEvent :=
  if is_layer_attribute_aggregable layer.storeType field ftype then
    get_attribute_statistics wps_enabled statsOf layer.name field
  else (none, [])

/-- Lines 506-531: the creation loop of `set_attributes` over the fetched
`attribute_map`, threading the attribute table, the 1-based display-order
counter and the remote-call trace.  A schema field equal (attribute and
declared type) to an existing row is a `get_or_create` hit and left
untouched; otherwise a row is created, statistics are requested exactly
when the field is aggregable, and label/visibility/display order are set
before saving. -/
def createAttrs (wps_enabled : Bool)
    (statsOf : String → String → Except String StatsResult) (layer : LayerRec) :
    List (Option String × String) → List AttrRec → Nat → List AttrEvent →
    List AttrRec × List AttrEvent
  | [], attrs, _, evs => (attrs, evs)
  | (field?, ftype) :: rest, attrs, it, evs =>
    match field? with
    | none => createAttrs wps_enabled statsOf layer rest attrs it evs
    | some field =>
      if attrs.any (fun a => a.attribute_name == field && a.attribute_type == ftype) then
        createAttrs wps_enabled statsOf layer rest attrs it evs
      else
        let base := newAttr field ftype
        let stats := statsFor wps_enabled statsOf layer field ftype
        let la1 := match stats.1 with
          | some r => withStats base r
          | none => base
        let la2 := { la1 with
          attribute_label := some (pyTitle field)
          visible := !(ftype.startsWith "gml:")
          display_order := it }
        createAttrs wps_enabled statsOf layer rest (attrs ++ [la2]) (it + 1) (evs ++ stats.2)

/-- Lines 461-533: `set_attributes`.  The schema fetches are external:
`vectorSchema` models the DescribeFeatureType fetch+parse (its failure
propagates, lines 474-478), `rasterSchema` the DescribeCoverage fetch+parse
(its failure is caught and yields an empty schema, lines 487-493); entries
are `(field name, declared type)` with a possibly-`None` field name.
Existing rows are deleted when `overwrite` is set or the field is no longer
in the schema; then the creation loop runs with the display-order counter
continuing from the count of surviving rows plus one. -/
def set_attributes (wps_enabled : Bool)
    (statsOf : String → String → Except String StatsResult)
    (vectorSchema rasterSchema : Except String (List (Option String × String)))
    (layer : LayerRec) (attrs0 : List AttrRec) (overwrite : Bool) :
    Except String (List AttrRec × List AttrEvent) :=
  match (if layer.storeType == "dataStore" then vectorSchema
         else if layer.storeType == "coverageStore" then .ok (rasterSchema.toOption.getD [])
         else .ok []) with
  | .error e => .error e
  | .ok attribute_map =>
    let kept := attrs0.filter (fun la =>
      !overwrite && attribute_map.any (fun p => p.1 == some la.attribute_name))
    .ok (createAttrs wps_enabled statsOf layer attribute_map kept (kept.length + 1) [])

/-- The advertised flag of a well-formed catalog resource: a boolean, the
strings `"true"`/`"false"`, or absent. -/
def wellFormedAdv (v : PyVal) : Prop :=
  v = .pBool true ∨ v = .pBool false ∨ v = .pStr "true" ∨ v = .pStr "false" ∨ v = .pNone

/-- The guard of the `fixup_style` loop body (line 174):
`lyr.default_style.name in _style_templates`, for a layer that has a
default style. -/
def fixupQualifies (l : GsLayerObj) : Bool :=
  match l.default_style with
  | some ds => _style_templates_keys.contains ds.name
  | none => false

/-- All statistics fields of an `Attribute` row are unset. -/
def statsUnset (a : AttrRec) : Prop :=
  a.count = none ∧ a.min = none ∧ a.max = none ∧ a.average = none ∧ a.median = none ∧
  a.stddev = none ∧ a.sum = none ∧ a.unique_values = none ∧ a.last_stats_updated = false

/-! Concrete instances used by witnesses and counterexamples. -/

def noAf : GsResource → Bool := fun _ => false

def noDf : LayerRec → Bool := fun _ => false

def exStoreDs1 : StoreRef := ⟨"ds1", "ws1", "dataStore", []⟩

def exResRoads : GsResource := ⟨"roads", exStoreDs1, .pStr "true", .pNone, some "Roads", none⟩

def exStaleLayer : LayerRec :=
  ⟨"old", "ws1", "other", "dataStore", "ws1:old", "t", "a", none, 99⟩

def exOptsRemove : SlurpOpts := ⟨true, none, none, none, none, false, true⟩

def exOptsPlain : SlurpOpts := ⟨true, none, none, none, none, false, false⟩

def exOptsStrict : SlurpOpts := ⟨false, none, none, none, none, false, false⟩

def exOptsSkip : SlurpOpts := ⟨true, none, none, none, none, true, false⟩

def exCatRoads : GsCatalog := ⟨[], [exStoreDs1], [exResRoads]⟩

def exStoreS1 : StoreRef := ⟨"s1", "w1", "dataStore", []⟩

def exResA : GsResource := ⟨"a", exStoreS1, .pStr "true", .pNone, none, none⟩

def exResB : GsResource := ⟨"b", exStoreS1, .pStr "true", .pNone, none, none⟩

def exResRoadsS1 : GsResource := ⟨"roads", exStoreS1, .pStr "true", .pNone, none, none⟩

def exResAdvF : GsResource := ⟨"x", exStoreS1, .pStr "true", .pStr "false", none, none⟩

def exAfA : GsResource → Bool := fun r => r.name == "a"

def exJunkA : LayerRec := ⟨"a", "junkws", "s1", "dataStore", "x", "t", "a", none, 7⟩

def exCatAB : GsCatalog := ⟨[], [exStoreS1], [exResA, exResB]⟩

/-- First run of the C4 scenario. -/
def c4res1 : SlurpResult :=
  match gs_slurp exAfA noDf exCatAB exOptsRemove [exJunkA] 0 with
  | .ok r => r
  | .error _ => dummySlurpResult

/-- Second run of the C4 scenario, from the state left by the first. -/
def c4res2 : SlurpResult :=
  match gs_slurp exAfA noDf exCatAB exOptsRemove c4res1.layers c4res1.ctr with
  | .ok r => r
  | .error _ => dummySlurpResult

/-- First run of the C4 witness scenario (no failures). -/
def c4wres1 : SlurpResult :=
  match gs_slurp noAf noDf exCatAB exOptsPlain [] 0 with
  | .ok r => r
  | .error _ => dummySlurpResult

def exLayerS2 : LayerRec :=
  ⟨"roads", "w1", "s2", "dataStore", "w1:roads", "t", "a", none, 0⟩

def exPolyStyle : GsStyleObj := ⟨"polygon", "pbody"⟩

def exFixL1 : GsLayerObj := ⟨"l1", some exPolyStyle, []⟩

def exFixL2 : GsLayerObj := ⟨"l2", some exPolyStyle, []⟩

def exCsPoint : GsStyleObj := ⟨"point", "x"⟩

def exCsCustom : GsStyleObj := ⟨"mystyle", "y"⟩

def exCascLyr : GsLayerObj := ⟨"roads", some exCsCustom, [some exCsPoint, none]⟩

def exCascCat : CascCatalog := ⟨["w1"], [exResRoadsS1], [exCascLyr]⟩

def exVecLayer : LayerRec :=
  ⟨"roads", "w1", "s1", "dataStore", "w1:roads", "t", "a", none, 0⟩

/-- Run of the C10 scenario. -/
def c10res : SlurpResult :=
  match gs_slurp exAfA noDf exCatAB exOptsPlain [exJunkA] 0 with
  | .ok r => r
  | .error _ => dummySlurpResult

/-! Theorems. -/

/-- C2: the claim asserts the palette generator is periodic with period 6;
the marks list has five entries advancing in lockstep with the six-entry
color lists, so the triple of call 6 differs from the triple of call 0 in
its mark component. -/
theorem C2_counterexample : _style_contexts 6 ≠ _style_contexts 0 := by decide

/-- C2 (amended): the style-palette generator consumed by `get_sld_for` is
periodic with period 30 = lcm(6,5) — the triple of call n+30 equals that of
call n — and the 30 triples of one period are pairwise distinct, so the
effective palette has exactly 30 distinct triples, not 6. -/
theorem C2_amended :
    (∀ n, _style_contexts (n + 30) = _style_contexts n) ∧
    ((List.range 30).map _style_contexts).Nodup := by
  constructor
  · intro n
    have lf : _foregrounds.length = 6 := rfl
    have lb : _backgrounds.length = 6 := rfl
    have lm : _marks.length = 5 := rfl
    have h6 : (n + 30) % 6 = n % 6 := by omega
    have h5 : (n + 30) % 5 = n % 5 := by omega
    simp only [_style_contexts, lf, lb, lm, h6, h5]
  · decide

/-- C1: the claim asserts that when no store option is supplied the
deletion-pass `Layer` query applies no store filter.  In the code the local
variable `store` is rebound by the upsert loop (line 332), so after a run
over one resource in store `ds1` — with no store option supplied — the
deletion-pass query filters on `store == "ds1"`, and the stale local layer
`old` (store `other`, matching no upstream resource) is excluded from the
query and never deleted: `deleted = 0` and the stale row survives. -/
theorem C1_code_bug :
    ((upsertList exOptsRemove noAf
          (filteredResources exOptsRemove exCatRoads.resources)
          ⟨[exStaleLayer], 0, [], 0, 0, 0, .svNone, .wvNone⟩).toOption.map
        (fun s => storeFilterOf s.storeVar)) = some (some "ds1") ∧
    ((gs_slurp noAf noDf exCatRoads exOptsRemove [exStaleLayer] 0).toOption.map
        (fun res => (res.output.stats.deleted, decide (exStaleLayer ∈ res.layers))))
      = some (0, true) := by decide

/-- Membership in the deletion-candidate list: a layer of the deletion-pass
query is a candidate iff no snapshot resource agrees with it on name,
workspace name and store name simultaneously. -/
theorem mem_deletionCandidates (q : List LayerRec) (snap : List GsResource) (l : LayerRec) :
    l ∈ deletionCandidates q snap ↔
      l ∈ q ∧ ∀ r ∈ snap, ¬(l.name = r.name ∧ l.workspace = r.store.workspace ∧
        l.store = r.store.name) := by
  simp [deletionCandidates, List.mem_filter, fullMatch, List.any_eq_true, not_exists]

/-- C5: in the remove-deleted pass a queried local layer is a deletion
candidate iff no resource of the pre-name-filter snapshot agrees with it on
name, workspace name and store name simultaneously; in particular a queried
layer whose name and workspace match a snapshot resource — the only
snapshot resource of that name — but whose store name differs is marked a
deletion candidate. -/
theorem C5_deletion_candidacy :
    ∀ (q : List LayerRec) (snap : List GsResource) (l : LayerRec),
      (l ∈ deletionCandidates q snap ↔
        l ∈ q ∧ ∀ r ∈ snap, ¬(l.name = r.name ∧ l.workspace = r.store.workspace ∧
          l.store = r.store.name)) ∧
      (∀ r : GsResource, l ∈ q → r ∈ snap → l.name = r.name →
        l.workspace = r.store.workspace → l.store ≠ r.store.name →
        (∀ r' ∈ snap, r'.name = l.name → r' = r) →
        l ∈ deletionCandidates q snap) := by
  intro q snap l
  refine ⟨mem_deletionCandidates q snap l, ?_⟩
  intro r hq _hr hn hw hs huniq
  apply (mem_deletionCandidates q snap l).2
  refine ⟨hq, ?_⟩
  intro r' hr' hcon
  have hr'name : r'.name = l.name := hcon.1.symm
  have hrr : r' = r := huniq r' hr' hr'name
  subst hrr
  exact hs hcon.2.2

/-- C5 witness: the layer `roads/w1/s2` against a snapshot whose only
`roads` resource lives in store `s1` is a deletion candidate. -/
theorem C5_witness : exLayerS2 ∈ deletionCandidates [exLayerS2] [exResRoadsS1] :=
  (C5_deletion_candidacy [exLayerS2] [exResRoadsS1] exLayerS2).2 exResRoadsS1
    (by decide) (by decide) (by decide) (by decide) (by decide) (by decide)

/-- C7: with skip-unadvertised set, an enabled resource with a well-formed
advertised flag is included in both the upsert set and the remove-deleted
snapshot when the flag is boolean true, the literal string "true", or
absent; and it is excluded from the snapshot exactly when the flag is an
explicit false value (boolean false or the string "false"). -/
theorem C7_advertised :
    ∀ (opts : SlurpOpts) (resources : List GsResource) (r : GsResource),
      opts.skip_unadvertised = true →
      r ∈ resources →
      enabledOk r.enabled = true →
      wellFormedAdv r.advertised →
      (((r.advertised = .pBool true ∨ r.advertised = .pStr "true" ∨ r.advertised = .pNone) →
          r ∈ snapshotFor true resources ∧
          (nameFilterOkB opts.filter r = true → r ∈ filteredResources opts resources)) ∧
       (r ∉ snapshotFor true resources ↔
          (r.advertised = .pBool false ∨ r.advertised = .pStr "false"))) := by
  intro opts resources r hskip hmem hen hwf
  have hsnap : r ∈ snapshotFor true resources ↔ advOk r.advertised = true := by
    simp [snapshotFor, List.mem_filter, hmem, hen]
  constructor
  · intro h
    have ha : advOk r.advertised = true := by
      rcases h with h | h | h <;> rw [h] <;> rfl
    refine ⟨hsnap.2 ha, ?_⟩
    intro hnf
    simp [filteredResources, hskip, List.mem_filter, hmem, hen, ha, hnf]
  · constructor
    · intro hns
      have ha : advOk r.advertised = false := by
        cases hcase : advOk r.advertised
        · rfl
        · exact absurd (hsnap.2 hcase) hns
      rcases hwf with h | h | h | h | h <;> rw [h] at ha <;> simp [advOk] at ha <;> simp [h]
    · rintro (h | h) hmemS <;>
        · have := hsnap.1 hmemS
          rw [h] at this
          simp [advOk] at this

/-- C7 witness: in a two-resource catalog, the enabled resource with absent
advertised flag is in the snapshot and in the filtered upsert set, and the
resource advertised as the string "false" is excluded from the snapshot. -/
theorem C7_witness :
    ((exResRoadsS1.advertised = .pBool true ∨ exResRoadsS1.advertised = .pStr "true" ∨
        exResRoadsS1.advertised = .pNone) →
      exResRoadsS1 ∈ snapshotFor true [exResRoadsS1, exResAdvF] ∧
      (nameFilterOkB exOptsSkip.filter exResRoadsS1 = true →
        exResRoadsS1 ∈ filteredResources exOptsSkip [exResRoadsS1, exResAdvF])) ∧
    (exResAdvF ∉ snapshotFor true [exResRoadsS1, exResAdvF] ↔
      (exResAdvF.advertised = .pBool false ∨ exResAdvF.advertised = .pStr "false")) :=
  ⟨(C7_advertised exOptsSkip [exResRoadsS1, exResAdvF] exResRoadsS1 rfl (by decide) (by decide)
      (by simp [wellFormedAdv, exResRoadsS1])).1,
   (C7_advertised exOptsSkip [exResRoadsS1, exResAdvF] exResAdvF rfl (by decide) (by decide)
      (by simp [wellFormedAdv, exResAdvF])).2⟩


/-- A non-style event contributes nothing to the style-deletion trace. -/
theorem styleDeleteEvs_cons_other (e : CascEvent) (tr : List CascEvent)
    (h : ∀ s b, e ≠ CascEvent.tryDeleteStyle s b) :
    styleDeleteEvs (e :: tr) = styleDeleteEvs tr := by
  cases e with
  | tryDeleteStyle s b => exact absurd rfl (h s b)
  | deleteLayer n => simp [styleDeleteEvs, List.filterMap_cons]
  | tryDeleteResource n b => simp [styleDeleteEvs, List.filterMap_cons]
  | reload => simp [styleDeleteEvs, List.filterMap_cons]
  | dropPostgisTable n => simp [styleDeleteEvs, List.filterMap_cons]
  | tryDeleteStore n b => simp [styleDeleteEvs, List.filterMap_cons]

theorem styleDeleteEvs_append (a b : List CascEvent) :
    styleDeleteEvs (a ++ b) = styleDeleteEvs a ++ styleDeleteEvs b := by
  simp [styleDeleteEvs, List.filterMap_append]

/-- The style-deletion trace of the mapped attempt list is the attempt list
paired with its failure flags. -/
theorem styleDeleteEvs_map_styles (sfail : GsStyleObj → Bool) (l : List GsStyleObj) :
    styleDeleteEvs (l.map (fun s => CascEvent.tryDeleteStyle s (sfail s))) =
      l.map (fun s => (s, sfail s)) := by
  induction l with
  | nil => rfl
  | cons a t ih => simp only [List.map_cons, styleDeleteEvs, List.filterMap_cons] at ih ⊢; simp [ih]

/-- Every submitted style comes from the captured list and is not generic. -/
theorem styleAttempts_not_generic (lyr : GsLayerObj) :
    ∀ s ∈ styleAttempts lyr, _default_style_names.contains s.name = false := by
  intro s hs
  rcases List.mem_filterMap.1 hs with ⟨s?, _, hmap⟩
  cases s? with
  | none => cases hmap
  | some t =>
    simp only [styleKeep] at hmap
    by_cases hg : _default_style_names.contains t.name = true
    · rw [if_pos hg] at hmap
      cases hmap
    · rw [if_neg hg] at hmap
      cases hmap
      simpa using hg

/-- Counting a mapped `(style, flag)` pair counts the style. -/
theorem count_map_pair (sfail : GsStyleObj → Bool) (l : List GsStyleObj) (s : GsStyleObj) :
    (l.map (fun t => (t, sfail t))).count (s, sfail s) = l.count s := by
  induction l with
  | nil => rfl
  | cons a t ih =>
    by_cases has : a = s
    · subst has
      simp [List.count_cons, ih]
    · have h2 : ¬((a, sfail a) = (s, sfail s)) := fun h => has (congrArg Prod.fst h)
      simp [List.count_cons, ih, has, h2]

/-- Counting a non-generic style through the attempt-selection filter agrees
with counting its occurrences in the captured optional-style list. -/
theorem styleAttempts_count (l : List (Option GsStyleObj)) (s : GsStyleObj)
    (hs : _default_style_names.contains s.name = false) :
    (l.filterMap styleKeep).count s = l.count (some s) := by
  induction l with
  | nil => rfl
  | cons h t ih =>
    cases h with
    | none =>
      have hk : styleKeep none = none := rfl
      simp only [List.filterMap_cons, hk]
      simp [List.count_cons, ih]
    | some u =>
      by_cases hg : _default_style_names.contains u.name = true
      · have hg2 : u.name ∈ _default_style_names := by simpa using hg
        have hk : styleKeep (some u) = none := by simp [styleKeep, hg2]
        have hne : u ≠ s := fun h => by rw [h, hs] at hg; cases hg
        simp only [List.filterMap_cons, hk]
        simp [List.count_cons, ih, hne]
      · have hg2 : u.name ∉ _default_style_names := by simpa using hg
        have hk : styleKeep (some u) = some u := by simp [styleKeep, hg2]
        simp only [List.filterMap_cons, hk]
        by_cases hus : u = s
        · subst hus
          simp [List.count_cons, ih]
        · simp [List.count_cons, ih, hus]

theorem mem_styleDeleteEvs_of_mem {s : GsStyleObj} {b : Bool} {tr : List CascEvent}
    (h : CascEvent.tryDeleteStyle s b ∈ tr) : (s, b) ∈ styleDeleteEvs tr := by
  simp only [styleDeleteEvs]
  exact List.mem_filterMap.2 ⟨_, h, rfl⟩

theorem styleDeleteEvs_resEvs (n : String) (b : Bool) :
    styleDeleteEvs (CascEvent.tryDeleteResource n b ::
      (if b then [CascEvent.reload] else [])) = [] := by
  cases b <;> rfl

theorem styleDeleteEvs_storeEvs (c : Bool) (n m : String) (sf : Bool) :
    styleDeleteEvs (if c then [CascEvent.dropPostgisTable n]
      else [CascEvent.tryDeleteStore m sf]) = [] := by
  cases c <;> rfl

/-- The style-deletion trace of a full `cascading_delete` event list is that
of its style segment. -/
theorem styleDeleteEvs_trace (x : String) (A B C : List CascEvent)
    (hB : styleDeleteEvs B = []) (hC : styleDeleteEvs C = []) :
    styleDeleteEvs ((CascEvent.deleteLayer x :: A) ++ B ++ C) = styleDeleteEvs A := by
  rw [styleDeleteEvs_append, styleDeleteEvs_append, hB, hC,
    styleDeleteEvs_cons_other _ _ (fun s b h => CascEvent.noConfusion h)]
  simp

/-- C8: in `cascading_delete`, when the external layer exists its styles
(alternates plus default) are captured from the pre-delete layer object and
the layer deletion is issued first; a style named with one of the four
generic built-in names is never submitted for deletion; every other
captured style is submitted once per captured occurrence (hence exactly
once when the captured list has no duplicates); and the call returns
normally for every style-deletion failure oracle — failures are recorded,
not propagated. -/
theorem C8_cascade_styles :
    ∀ (sfail : GsStyleObj → Bool) (resFail storeFail : Bool) (cat : CascCatalog)
      (layer_name : String) (resource : GsResource) (lyr : GsLayerObj),
      resolveCascResource cat layer_name = .ok (some resource) →
      cat.layers.find? (fun l => l.name == resource.name) = some lyr →
      ∃ tr, cascading_delete .connOk sfail resFail storeFail cat layer_name = .ok tr ∧
        styleDeleteEvs tr = (styleAttempts lyr).map (fun s => (s, sfail s)) ∧
        (∀ s b, _default_style_names.contains s.name = true →
          CascEvent.tryDeleteStyle s b ∉ tr) ∧
        (∀ s, _default_style_names.contains s.name = false →
          (styleDeleteEvs tr).count (s, sfail s) =
            (lyr.styles ++ [lyr.default_style]).count (some s)) ∧
        tr.head? = some (CascEvent.deleteLayer lyr.name) := by
  intro sfail resFail storeFail cat layer_name resource lyr hres hlyr
  have hrun : cascading_delete .connOk sfail resFail storeFail cat layer_name =
      .ok ((CascEvent.deleteLayer lyr.name ::
          (styleAttempts lyr).map (fun s => CascEvent.tryDeleteStyle s (sfail s))) ++
        (CascEvent.tryDeleteResource resource.name resFail ::
          (if resFail then [CascEvent.reload] else [])) ++
        (if resource.store.resource_type == "dataStore" &&
            ((resource.store.connection_parameters.find? (fun p => p.1 == "dbtype")).map
              (fun p => p.2) == some "postgis") then
          [CascEvent.dropPostgisTable resource.name]
        else [CascEvent.tryDeleteStore resource.store.name storeFail])) := by
    simp only [cascading_delete, hres, hlyr]
  have htr : styleDeleteEvs ((CascEvent.deleteLayer lyr.name ::
          (styleAttempts lyr).map (fun s => CascEvent.tryDeleteStyle s (sfail s))) ++
        (CascEvent.tryDeleteResource resource.name resFail ::
          (if resFail then [CascEvent.reload] else [])) ++
        (if resource.store.resource_type == "dataStore" &&
            ((resource.store.connection_parameters.find? (fun p => p.1 == "dbtype")).map
              (fun p => p.2) == some "postgis") then
          [CascEvent.dropPostgisTable resource.name]
        else [CascEvent.tryDeleteStore resource.store.name storeFail])) =
      (styleAttempts lyr).map (fun s => (s, sfail s)) := by
    rw [styleDeleteEvs_trace _ _ _ _ (styleDeleteEvs_resEvs _ _)
      (styleDeleteEvs_storeEvs _ _ _ _), styleDeleteEvs_map_styles]
  refine ⟨_, hrun, htr, ?_, ?_, ?_⟩
  · intro s b hgen hmem
    have hin : (s, b) ∈ (styleAttempts lyr).map (fun t => (t, sfail t)) := by
      rw [← htr]
      exact mem_styleDeleteEvs_of_mem hmem
    rcases List.mem_map.1 hin with ⟨t, htmem, hteq⟩
    have hts : t = s := congrArg Prod.fst hteq
    subst hts
    have hng := styleAttempts_not_generic lyr t htmem
    rw [hng] at hgen
    cases hgen
  · intro s hs
    rw [htr, count_map_pair]
    simp only [styleAttempts]
    exact styleAttempts_count _ s hs
  · simp

/-- C8 witness: a concrete cascade over a layer whose alternate list holds
the generic `point` style and a `None` entry, and whose default is the
custom style `mystyle`, with the custom-style deletion failing: one
submission of `mystyle`, zero of `point`, layer deletion first, normal
return. -/
theorem C8_witness :
    ∃ tr, cascading_delete .connOk (fun s => s.name == "mystyle") true false
        exCascCat "w1:roads" = .ok tr ∧
      styleDeleteEvs tr = (styleAttempts exCascLyr).map
        (fun s => (s, (fun s : GsStyleObj => s.name == "mystyle") s)) ∧
      (∀ s b, _default_style_names.contains s.name = true →
        CascEvent.tryDeleteStyle s b ∉ tr) ∧
      (∀ s, _default_style_names.contains s.name = false →
        (styleDeleteEvs tr).count (s, (fun s : GsStyleObj => s.name == "mystyle") s) =
          (exCascLyr.styles ++ [exCascLyr.default_style]).count (some s)) ∧
      tr.head? = some (CascEvent.deleteLayer exCascLyr.name) :=
  C8_cascade_styles (fun s => s.name == "mystyle") true false exCascCat "w1:roads"
    exResRoadsS1 exCascLyr (by rfl) (by rfl)

/-- The creation loop only appends rows. -/
theorem createAttrs_mono :
    ∀ (w : Bool) (so : String → String → Except String StatsResult) (layer : LayerRec)
      (m : List (Option String × String)) (attrs : List AttrRec) (it : Nat)
      (evs : List AttrEvent) (a : AttrRec),
      a ∈ attrs → a ∈ (createAttrs w so layer m attrs it evs).1 := by
  intro w so layer m
  induction m with
  | nil => intro attrs it evs a ha; exact ha
  | cons p rest ih =>
    intro attrs it evs a ha
    rcases p with ⟨field?, ftype⟩
    cases field? with
    | none => exact ih attrs it evs a ha
    | some field =>
      simp only [createAttrs]
      split
      · exact ih attrs it evs a ha
      · exact ih _ _ _ a (List.mem_append_left _ ha)

/-- With the statistics service disabled, the creation loop issues no
remote call. -/
theorem createAttrs_no_events_disabled :
    ∀ (so : String → String → Except String StatsResult) (layer : LayerRec)
      (m : List (Option String × String)) (attrs : List AttrRec) (it : Nat)
      (evs : List AttrEvent),
      (createAttrs false so layer m attrs it evs).2 = evs := by
  intro so layer m
  induction m with
  | nil => intro attrs it evs; rfl
  | cons p rest ih =>
    intro attrs it evs
    rcases p with ⟨field?, ftype⟩
    cases field? with
    | none => exact ih attrs it evs
    | some field =>
      simp only [createAttrs]
      split
      · exact ih attrs it evs
      · have hstats : statsFor false so layer field ftype =
            ((none : Option StatsResult), ([] : List AttrEvent)) := by
          unfold statsFor
          split <;> rfl
        rw [hstats]
        simpa using ih _ _ _

/-- When the service is disabled or the remote call raises, the statistics
request yields no values. -/
theorem statsFor_fst_none (w : Bool) (so : String → String → Except String StatsResult)
    (layer : LayerRec) (field ftype : String)
    (h : w = false ∨ ∃ e, so layer.name field = .error e) :
    (statsFor w so layer field ftype).1 = none := by
  unfold statsFor
  split
  · rcases h with h | ⟨e, he⟩
    · subst h; rfl
    · cases w
      · rfl
      · simp [get_attribute_statistics, he]
  · rfl

/-- If a schema field not matching any existing row appears in the map and
the statistics request yields no values, the loop creates a row for it with
all statistics fields unset. -/
theorem createAttrs_creates :
    ∀ (w : Bool) (so : String → String → Except String StatsResult) (layer : LayerRec)
      (m : List (Option String × String)) (attrs : List AttrRec) (it : Nat)
      (evs : List AttrEvent) (field ftype : String),
      (some field, ftype) ∈ m →
      (∀ a ∈ attrs, ¬(a.attribute_name = field ∧ a.attribute_type = ftype)) →
      (w = false ∨ ∃ e, so layer.name field = .error e) →
      ∃ a ∈ (createAttrs w so layer m attrs it evs).1,
        a.attribute_name = field ∧ a.attribute_type = ftype ∧ statsUnset a := by
  intro w so layer m
  induction m with
  | nil => intro attrs it evs field ftype hmem; cases hmem
  | cons p rest ih =>
    intro attrs it evs field ftype hmem hinv hw
    rcases p with ⟨f?, ft⟩
    cases f? with
    | none =>
      have hmem' : (some field, ftype) ∈ rest := by
        rcases List.mem_cons.1 hmem with h | h
        · cases h
        · exact h
      exact ih attrs it evs field ftype hmem' hinv hw
    | some f =>
      simp only [createAttrs]
      split
      · rename_i hany
        have hne : ¬(f = field ∧ ft = ftype) := by
          rintro ⟨h1, h2⟩
          subst h1; subst h2
          rcases List.any_eq_true.1 hany with ⟨a, hamem, hprop⟩
          rw [Bool.and_eq_true, beq_iff_eq, beq_iff_eq] at hprop
          exact hinv a hamem ⟨hprop.1, hprop.2⟩
        have hmem' : (some field, ftype) ∈ rest := by
          rcases List.mem_cons.1 hmem with h | h
          · exfalso
            apply hne
            have h1 := congrArg Prod.fst h
            have h2 := congrArg Prod.snd h
            simp at h1 h2
            exact ⟨h1.symm, h2.symm⟩
          · exact h
        exact ih attrs it evs field ftype hmem' hinv hw
      · rename_i hany
        rcases hst : statsFor w so layer f ft with ⟨o, ev⟩
        by_cases hff : f = field ∧ ft = ftype
        · obtain ⟨h1, h2⟩ := hff
          subst h1; subst h2
          have ho : o = none := by
            have := statsFor_fst_none w so layer f ft hw
            rw [hst] at this
            exact this
          subst ho
          refine ⟨{ newAttr f ft with
              attribute_label := some (pyTitle f)
              visible := !(ft.startsWith "gml:")
              display_order := it }, ?_, ?_, ?_, ?_⟩
          · apply createAttrs_mono
            exact List.mem_append_right _ (by simp)
          · simp [newAttr]
          · simp [newAttr]
          · simp [statsUnset, newAttr]
        · have hmem' : (some field, ftype) ∈ rest := by
            rcases List.mem_cons.1 hmem with h | h
            · exfalso
              apply hff
              have h1 := congrArg Prod.fst h
              have h2 := congrArg Prod.snd h
              simp at h1 h2
              exact ⟨h1.symm, h2.symm⟩
            · exact h
          apply ih _ _ _ field ftype hmem' _ hw
          intro a ha
          rcases List.mem_append.1 ha with h | h
          · exact hinv a h
          · have ha' := List.mem_singleton.1 h
            subst ha'
            intro hkey
            apply hff
            cases o with
            | none =>
              simp [newAttr] at hkey
              exact hkey
            | some r =>
              simp [withStats, newAttr] at hkey
              exact hkey

/-- C9: during attribute synchronization of a vector layer, for a schema
field matching no existing row: when the statistics service is disabled in
configuration no remote statistics call is attempted at all, and when the
remote statistics call raises the failure is absorbed; in both cases
`set_attributes` returns normally and the newly created `Attribute` row is
saved with every statistics field (count, min, max, average, median,
stddev, sum, unique values, last-updated stamp) unset. -/
theorem C9_stats_isolation :
    ∀ (wps : Bool) (statsOf : String → String → Except String StatsResult)
      (rsS : Except String (List (Option String × String)))
      (amap : List (Option String × String)) (layer : LayerRec) (attrs0 : List AttrRec)
      (overwrite : Bool) (field ftype : String),
      layer.storeType = "dataStore" →
      (some field, ftype) ∈ amap →
      (∀ a ∈ attrs0, ¬(a.attribute_name = field ∧ a.attribute_type = ftype)) →
      (wps = false ∨ ∃ e, statsOf layer.name field = .error e) →
      ∃ out, set_attributes wps statsOf (.ok amap) rsS layer attrs0 overwrite = .ok out ∧
        (∃ a ∈ out.1, a.attribute_name = field ∧ a.attribute_type = ftype ∧ statsUnset a) ∧
        (wps = false → out.2 = []) := by
  intro wps statsOf rsS amap layer attrs0 overwrite field ftype hstore hmem hinv hw
  have hbeq : (layer.storeType == "dataStore") = true := by
    rw [hstore]; rfl
  have hrun : set_attributes wps statsOf (.ok amap) rsS layer attrs0 overwrite =
      .ok (createAttrs wps statsOf layer amap
        (attrs0.filter (fun la =>
          !overwrite && amap.any (fun p => p.1 == some la.attribute_name)))
        ((attrs0.filter (fun la =>
          !overwrite && amap.any (fun p => p.1 == some la.attribute_name))).length + 1) []) := by
    simp only [set_attributes, hbeq, if_pos]
  refine ⟨_, hrun, ?_, ?_⟩
  · apply createAttrs_creates wps statsOf layer amap _ _ _ field ftype hmem _ hw
    intro a ha
    exact hinv a (List.mem_filter.1 ha).1
  · intro hwf
    subst hwf
    exact createAttrs_no_events_disabled statsOf layer amap _ _ _

/-- C9 witness: with the statistics service disabled, synchronizing the
single numeric field `elevation` of a vector layer creates its row with
statistics unset and issues no remote call. -/
theorem C9_witness :
    ∃ out, set_attributes false (fun _ _ => Except.error "boom")
        (.ok [(some "elevation", "xsd:int")]) (.ok []) exVecLayer [] true = .ok out ∧
      (∃ a ∈ out.1, a.attribute_name = "elevation" ∧ a.attribute_type = "xsd:int" ∧
        statsUnset a) ∧
      (false = false → out.2 = []) :=
  C9_stats_isolation false (fun _ _ => Except.error "boom") (.ok [])
    [(some "elevation", "xsd:int")] exVecLayer [] true "elevation" "xsd:int"
    rfl (by simp) (by simp) (Or.inl rfl)

/-- With the style variable holding `None`, the loop uploads exactly the
freshly generated documents of the qualifying layers, cursor advancing. -/
theorem fixup_none_outs :
    ∀ (res : GsResource) (layers : List GsLayerObj) (ctr : Nat)
      (outs : List (String × String)) (svF : UpStyle) (ctrF : Nat),
      fixupLoop res layers UpStyle.noneV ctr = .ok (outs, svF, ctrF) →
      outs = fixupGenOuts res layers ctr := by
  intro res layers
  induction layers with
  | nil =>
    intro ctr outs svF ctrF h
    simp only [fixupLoop, Except.ok.injEq, Prod.mk.injEq] at h
    rcases h with ⟨houts, _⟩
    subst houts
    rfl
  | cons lyr rest ih =>
    intro ctr outs svF ctrF h
    simp only [fixupLoop, readStyleVar] at h
    cases hds : lyr.default_style with
    | none => simp [hds] at h
    | some ds =>
      simp only [hds] at h
      by_cases hq : _style_templates_keys.contains ds.name = true
      · rw [if_pos hq] at h
        rcases hrec : fixupLoop res rest UpStyle.noneV (get_sld_for ctr lyr).2
            with e | ⟨outs2, svF2, ctrF2⟩
        · rw [hrec] at h; cases h
        · rw [hrec] at h
          simp only [Except.ok.injEq, Prod.mk.injEq] at h
          rcases h with ⟨houts, _⟩
          subst houts
          simp only [fixupGenOuts, hds]
          rw [if_pos hq, ih _ _ _ _ hrec]
      · rw [if_neg hq] at h
        have hrest := ih _ _ _ _ h
        simp only [fixupGenOuts, hds]
        rw [if_neg hq]
        exact hrest

/-- With a caller-supplied document, the first qualifying layer uploads the
caller document; line 182 then rebinds `style` to the `None` returned by
`cat.create_style`, so the remaining layers proceed as from `None`, with
the palette cursor still unadvanced. -/
theorem fixup_uploaded_outs :
    ∀ (res : GsResource) (pre : List GsLayerObj) (l0 : GsLayerObj)
      (rest : List GsLayerObj) (b : String) (ctr : Nat)
      (outs : List (String × String)) (svF : UpStyle) (ctrF : Nat),
      (∀ p ∈ pre, fixupQualifies p = false) →
      fixupQualifies l0 = true →
      fixupLoop res (pre ++ l0 :: rest) (UpStyle.uploadedV b) ctr = .ok (outs, svF, ctrF) →
      outs = (_style_name res, b) :: fixupGenOuts res rest ctr := by
  intro res pre
  induction pre with
  | nil =>
    intro l0 rest b ctr outs svF ctrF _ hq0 h
    simp only [List.nil_append, fixupLoop, readStyleVar] at h
    cases hds : l0.default_style with
    | none => simp [hds] at h
    | some ds =>
      simp only [hds] at h
      have hq : _style_templates_keys.contains ds.name = true := by
        simpa [fixupQualifies, hds] using hq0
      rw [if_pos hq] at h
      rcases hrec : fixupLoop res rest UpStyle.noneV ctr with e | ⟨outs2, svF2, ctrF2⟩
      · rw [hrec] at h; cases h
      · rw [hrec] at h
        simp only [Except.ok.injEq, Prod.mk.injEq] at h
        rcases h with ⟨houts, _⟩
        subst houts
        rw [fixup_none_outs res rest ctr outs2 svF2 ctrF2 hrec]
  | cons p ps ih =>
    intro l0 rest b ctr outs svF ctrF hpre hq0 h
    simp only [List.cons_append, fixupLoop, readStyleVar] at h
    cases hds : p.default_style with
    | none => simp [hds] at h
    | some ds =>
      simp only [hds] at h
      have hpq : fixupQualifies p = false := hpre p (by simp)
      have hq : _style_templates_keys.contains ds.name = false := by
        simpa [fixupQualifies, hds] using hpq
      rw [if_neg (by rw [hq]; exact Bool.false_ne_true)] at h
      exact ih l0 rest b ctr outs svF ctrF (fun q hq2 => hpre q (by simp [hq2])) hq0 h

/-- C3 (amended): in `fixup_style`, when no uploaded document is supplied
every layer with a generic default style receives a document freshly
generated for it, chosen by its own current default style name at the
advancing palette cursor.  When a caller document is supplied, only the
*first* such layer receives it: the loop rebinds the `style` variable to
the `None` returned by `cat.create_style` (line 182), so every subsequent
such layer again takes the `style is None` branch and receives a freshly
generated document, not the caller document. -/
theorem C3_amended :
    ∀ (res : GsResource) (layers : List GsLayerObj) (b : String) (ctr0 : Nat)
      (outs : List (String × String)) (svF : UpStyle) (ctrF : Nat),
      (fixupLoop res layers UpStyle.noneV ctr0 = .ok (outs, svF, ctrF) →
        outs = fixupGenOuts res layers ctr0) ∧
      (∀ pre l0 rest, layers = pre ++ l0 :: rest →
        (∀ p ∈ pre, fixupQualifies p = false) →
        fixupQualifies l0 = true →
        fixupLoop res layers (UpStyle.uploadedV b) ctr0 = .ok (outs, svF, ctrF) →
        outs = (_style_name res, b) :: fixupGenOuts res rest ctr0) := by
  intro res layers b ctr0 outs svF ctrF
  constructor
  · exact fixup_none_outs res layers ctr0 outs svF ctrF
  · intro pre l0 rest hsplit hpre hq0 h
    subst hsplit
    exact fixup_uploaded_outs res pre l0 rest b ctr0 outs svF ctrF hpre hq0 h

/-- C3 counterexample: with a caller-supplied document `updoc` and two
associated layers both defaulting to the generic `polygon` style, the body
uploaded for the second layer is a freshly generated polygon document, not
the caller-supplied document — the claim requires the caller document for
every such layer, not only the first. -/
theorem C3_counterexample :
    (fixupLoop exResRoads [exFixL1, exFixL2] (UpStyle.uploadedV "updoc") 0).toOption.map
        (fun o => o.1.map Prod.snd) =
      some ["updoc", (get_sld_for 0 exFixL2).1.getD ""] ∧
    (get_sld_for 0 exFixL2).1.getD "" ≠ "updoc" := by decide

/-- C3 witness: the concrete two-layer run with caller document `updoc`
uploads the caller document for the first layer and the freshly generated
document for the second. -/
theorem C3_amended_witness :
    ([("ws1_roads", "updoc"),
      ("ws1_roads", (get_sld_for 0 exFixL2).1.getD "")] : List (String × String)) =
      (_style_name exResRoads, "updoc") :: fixupGenOuts exResRoads [exFixL2] 0 :=
  (C3_amended exResRoads [exFixL1, exFixL2] "updoc" 0
      [("ws1_roads", "updoc"), ("ws1_roads", (get_sld_for 0 exFixL2).1.getD "")]
      UpStyle.noneV 1).2 [] exFixL1 [exFixL2] rfl
    (fun p hp => absurd hp (List.not_mem_nil p)) (by rfl) (by rfl)

/-- Projections of a successful upsert step: the table gains a row exactly
on a lookup miss, exactly one of the three counters is incremented, and one
report entry named after the resource is appended. -/
theorem upsertStep_ok_spec :
    ∀ (opts : SlurpOpts) (af : GsResource → Bool) (s : UpState) (r : GsResource) (s1 : UpState),
      upsertStep opts af s r = .ok s1 →
      s1.layers = (if s.layers.any (fun l => l.name == r.name) = true then s.layers
        else s.layers ++ [mkLayer opts.owner r s.ctr]) ∧
      s1.created = (if af r = false ∧ s.layers.any (fun l => l.name == r.name) = false
        then s.created + 1 else s.created) ∧
      s1.updated = (if af r = false ∧ s.layers.any (fun l => l.name == r.name) = true
        then s.updated + 1 else s.updated) ∧
      s1.failed = (if af r = true then s.failed + 1 else s.failed) ∧
      s1.infos = s.infos ++ [(if af r = true then failInfo r
        else if s.layers.any (fun l => l.name == r.name) = true then updatedInfo r
        else createdInfo r)] := by
  intro opts af s r s1 h
  simp only [upsertStep] at h
  by_cases haf : af r = true
  · rw [if_pos haf] at h
    by_cases hig : opts.ignore_errors = true
    · rw [if_pos hig] at h
      by_cases hhit : s.layers.any (fun l => l.name == r.name) = true
      · rw [if_pos hhit] at h
        simp only [Except.ok.injEq] at h
        subst h
        simp [haf, hhit]
      · rw [if_neg hhit] at h
        simp only [Except.ok.injEq] at h
        subst h
        simp [haf, hhit]
    · rw [if_neg hig] at h
      cases h
  · rw [if_neg haf] at h
    have haf' : af r = false := by
      cases hv : af r
      · rfl
      · exact absurd hv haf
    by_cases hhit : s.layers.any (fun l => l.name == r.name) = true
    · rw [if_pos hhit, if_pos hhit] at h
      simp only [Except.ok.injEq] at h
      subst h
      simp [haf', hhit]
    · rw [if_neg hhit, if_neg hhit] at h
      simp only [Except.ok.injEq] at h
      subst h
      simp [haf', hhit]

/-- A failing step aborts with the wrapping message only in strict mode. -/
theorem upsertStep_error_spec :
    ∀ (opts : SlurpOpts) (af : GsResource → Bool) (s : UpState) (r : GsResource) (e : String),
      upsertStep opts af s r = .error e →
      e = failMsg r ∧ af r = true ∧ opts.ignore_errors = false := by
  intro opts af s r e h
  simp only [upsertStep] at h
  by_cases haf : af r = true
  · rw [if_pos haf] at h
    by_cases hig : opts.ignore_errors = true
    · rw [if_pos hig] at h
      split at h <;> cases h
    · rw [if_neg hig] at h
      refine ⟨?_, haf, by cases hv : opts.ignore_errors <;> simp_all⟩
      cases h
      rfl
  · rw [if_neg haf] at h
    split at h <;> cases h

/-- In tolerant mode, or on a non-failing resource, a step succeeds. -/
theorem upsertStep_total :
    ∀ (opts : SlurpOpts) (af : GsResource → Bool) (s : UpState) (r : GsResource),
      (opts.ignore_errors = true ∨ af r = false) →
      ∃ s1, upsertStep opts af s r = .ok s1 := by
  intro opts af s r h
  rcases he : upsertStep opts af s r with e | s1
  · rcases upsertStep_error_spec opts af s r e he with ⟨_, haf, hig⟩
    rcases h with h | h
    · rw [h] at hig; cases hig
    · rw [h] at haf; cases haf
  · exact ⟨s1, rfl⟩

/-- A step taken in strict mode on a failing resource aborts. -/
theorem upsertStep_strict_error :
    ∀ (opts : SlurpOpts) (af : GsResource → Bool) (s : UpState) (r : GsResource),
      af r = true → opts.ignore_errors = false →
      upsertStep opts af s r = .error (failMsg r) := by
  intro opts af s r haf hig
  simp only [upsertStep]
  rw [if_pos haf, if_neg (by rw [hig]; exact Bool.false_ne_true)]

/-- A successful step on a failing resource implies tolerant mode. -/
theorem upsertStep_ok_af :
    ∀ (opts : SlurpOpts) (af : GsResource → Bool) (s : UpState) (r : GsResource) (s1 : UpState),
      upsertStep opts af s r = .ok s1 → af r = true → opts.ignore_errors = true := by
  intro opts af s r s1 h haf
  cases hig : opts.ignore_errors
  · rw [upsertStep_strict_error opts af s r haf hig] at h
    cases h
  · rfl

/-- The upsert loop never decreases counters, and only appends to the table
and the report. -/
theorem upsert_mono :
    ∀ (opts : SlurpOpts) (af : GsResource → Bool) (rs : List GsResource) (s s' : UpState),
      upsertList opts af rs s = .ok s' →
      s.created ≤ s'.created ∧ s.updated ≤ s'.updated ∧ s.failed ≤ s'.failed ∧
      (∃ ext, s'.layers = s.layers ++ ext) ∧ (∃ ext, s'.infos = s.infos ++ ext) := by
  intro opts af rs
  induction rs with
  | nil =>
    intro s s' h
    simp only [upsertList, Except.ok.injEq] at h
    subst h
    exact ⟨le_refl _, le_refl _, le_refl _, ⟨[], by simp⟩, ⟨[], by simp⟩⟩
  | cons r rest ih =>
    intro s s' h
    rcases hst : upsertStep opts af s r with e | s1
    · simp only [upsertList, hst] at h
      exact Except.noConfusion h
    · simp only [upsertList, hst] at h
      rcases ih s1 s' h with ⟨hc, hu, hf, ⟨ext1, hl⟩, ⟨ext2, hi⟩⟩
      rcases upsertStep_ok_spec opts af s r s1 hst with ⟨hl1, hc1, hu1, hf1, hi1⟩
      refine ⟨?_, ?_, ?_, ?_, ?_⟩
      · rw [hc1] at hc; split at hc <;> omega
      · rw [hu1] at hu; split at hu <;> omega
      · rw [hf1] at hf; split at hf <;> omega
      · rw [hl1] at hl
        split at hl
        · exact ⟨ext1, hl⟩
        · exact ⟨[mkLayer opts.owner r s.ctr] ++ ext1, by rw [hl, List.append_assoc]⟩
      · exact ⟨[(if af r = true then failInfo r
          else if s.layers.any (fun l => l.name == r.name) = true then updatedInfo r
          else createdInfo r)] ++ ext2, by rw [hi, hi1, List.append_assoc]⟩

/-- Per-run accounting: each processed resource adds one to exactly one
counter and appends exactly one report entry carrying its name. -/
theorem upsert_accounting :
    ∀ (opts : SlurpOpts) (af : GsResource → Bool) (rs : List GsResource) (s s' : UpState),
      upsertList opts af rs s = .ok s' →
      s'.created + s'.updated + s'.failed = s.created + s.updated + s.failed + rs.length ∧
      s'.infos.map (fun i => i.name) = s.infos.map (fun i => i.name) ++
        rs.map (fun r => r.name) ∧
      s'.infos.length = s.infos.length + rs.length := by
  intro opts af rs
  induction rs with
  | nil =>
    intro s s' h
    simp only [upsertList, Except.ok.injEq] at h
    subst h
    simp
  | cons r rest ih =>
    intro s s' h
    rcases hst : upsertStep opts af s r with e | s1
    · simp only [upsertList, hst] at h
      exact Except.noConfusion h
    · simp only [upsertList, hst] at h
      rcases ih s1 s' h with ⟨hsum, hmap, hlen⟩
      rcases upsertStep_ok_spec opts af s r s1 hst with ⟨_, hc1, hu1, hf1, hi1⟩
      have hname : (if af r = true then failInfo r
          else if s.layers.any (fun l => l.name == r.name) = true then updatedInfo r
          else createdInfo r).name = r.name := by
        split
        · rfl
        · split <;> rfl
      refine ⟨?_, ?_, ?_⟩
      · rw [hsum, hc1, hu1, hf1]
        cases haf : af r <;> cases hhit : s.layers.any (fun l => l.name == r.name) <;>
          simp [haf, hhit] <;> omega
      · rw [hmap, hi1, List.map_append, List.map_cons, List.map_nil, hname]
        simp [List.append_assoc]
      · rw [hlen, hi1, List.length_append]
        simp
        omega

/-- The failed counter counts exactly the failing resources of the run. -/
theorem upsert_failed_count :
    ∀ (opts : SlurpOpts) (af : GsResource → Bool) (rs : List GsResource) (s s' : UpState),
      upsertList opts af rs s = .ok s' →
      s'.failed = s.failed + rs.countP (fun r => af r) := by
  intro opts af rs
  induction rs with
  | nil =>
    intro s s' h
    simp only [upsertList, Except.ok.injEq] at h
    subst h
    simp
  | cons r rest ih =>
    intro s s' h
    rcases hst : upsertStep opts af s r with e | s1
    · simp only [upsertList, hst] at h
      exact Except.noConfusion h
    · simp only [upsertList, hst] at h
      rcases upsertStep_ok_spec opts af s r s1 hst with ⟨_, _, _, hf1, _⟩
      rw [ih s1 s' h, hf1, List.countP_cons]
      cases haf : af r <;> simp [haf] <;> omega

/-- After the loop, every processed resource has a row of its name. -/
theorem upsert_name_present :
    ∀ (opts : SlurpOpts) (af : GsResource → Bool) (rs : List GsResource) (s s' : UpState),
      upsertList opts af rs s = .ok s' →
      ∀ r ∈ rs, ∃ l ∈ s'.layers, l.name = r.name := by
  intro opts af rs
  induction rs with
  | nil => intro s s' _ r hr; cases hr
  | cons r0 rest ih =>
    intro s s' h r hr
    rcases hst : upsertStep opts af s r0 with e | s1
    · simp only [upsertList, hst] at h
      exact Except.noConfusion h
    · simp only [upsertList, hst] at h
      rcases List.mem_cons.1 hr with hr0 | hr0
      · subst hr0
        have hpresent : ∃ l ∈ s1.layers, l.name = r.name := by
          rcases upsertStep_ok_spec opts af s r s1 hst with ⟨hl1, _, _, _, _⟩
          rw [hl1]
          by_cases hhit : s.layers.any (fun l => l.name == r.name) = true
          · rw [if_pos hhit]
            rcases List.any_eq_true.1 hhit with ⟨l, hlmem, hlname⟩
            exact ⟨l, hlmem, by simpa using hlname⟩
          · rw [if_neg hhit]
            exact ⟨mkLayer opts.owner r s.ctr, List.mem_append_right _ (by simp), rfl⟩
        rcases hpresent with ⟨l, hlmem, hlname⟩
        rcases (upsert_mono opts af rest s1 s' h).2.2.2.1 with ⟨ext, hext⟩
        exact ⟨l, by rw [hext]; exact List.mem_append_left _ hlmem, hlname⟩
      · exact ih s1 s' h r hr0

/-- A run over tolerable resources succeeds. -/
theorem upsert_total :
    ∀ (opts : SlurpOpts) (af : GsResource → Bool) (rs : List GsResource) (s : UpState),
      (opts.ignore_errors = true ∨ ∀ r ∈ rs, af r = false) →
      ∃ s', upsertList opts af rs s = .ok s' := by
  intro opts af rs
  induction rs with
  | nil => intro s _; exact ⟨s, rfl⟩
  | cons r rest ih =>
    intro s hcond
    have hstep : ∃ s1, upsertStep opts af s r = .ok s1 := by
      apply upsertStep_total
      rcases hcond with h | h
      · exact Or.inl h
      · exact Or.inr (h r (by simp))
    rcases hstep with ⟨s1, hst⟩
    have hrest : opts.ignore_errors = true ∨ ∀ q ∈ rest, af q = false := by
      rcases hcond with h | h
      · exact Or.inl h
      · exact Or.inr (fun q hq => h q (by simp [hq]))
    rcases ih s1 hrest with ⟨s', h'⟩
    exact ⟨s', by simp only [upsertList, hst]; exact h'⟩

/-- A successful strict run has no failing resource. -/
theorem upsert_strict_no_af :
    ∀ (opts : SlurpOpts) (af : GsResource → Bool) (rs : List GsResource) (s s' : UpState),
      opts.ignore_errors = false →
      upsertList opts af rs s = .ok s' →
      ∀ r ∈ rs, af r = false := by
  intro opts af rs
  induction rs with
  | nil => intro s s' _ _ r hr; cases hr
  | cons r0 rest ih =>
    intro s s' hig h r hr
    rcases hst : upsertStep opts af s r0 with e | s1
    · simp only [upsertList, hst] at h
      exact Except.noConfusion h
    · simp only [upsertList, hst] at h
      rcases List.mem_cons.1 hr with hr0 | hr0
      · subst hr0
        cases haf : af r
        · rfl
        · rw [upsertStep_ok_af opts af s r s1 hst haf] at hig
          cases hig
      · exact ih s1 s' hig h r hr0

/-- In strict mode the run aborts at the first failing resource, with the
wrapping message of line 357. -/
theorem upsert_strict_error_list :
    ∀ (opts : SlurpOpts) (af : GsResource → Bool) (pre post : List GsResource)
      (r : GsResource) (s : UpState),
      opts.ignore_errors = false → (∀ p ∈ pre, af p = false) → af r = true →
      upsertList opts af (pre ++ r :: post) s = .error (failMsg r) := by
  intro opts af pre
  induction pre with
  | nil =>
    intro post r s hig hpre hr
    simp only [List.nil_append, upsertList, upsertStep_strict_error opts af s r hr hig]
  | cons p ps ih =>
    intro post r s hig hpre hr
    have hp : af p = false := hpre p (by simp)
    rcases upsertStep_total opts af s p (Or.inr hp) with ⟨s1, hst⟩
    have := ih post r s1 hig (fun q hq => hpre q (by simp [hq])) hr
    simp only [List.cons_append, upsertList, hst]
    exact this

/-- In tolerant mode every failing resource is recorded as failed with the
captured error. -/
theorem upsert_fail_info :
    ∀ (opts : SlurpOpts) (af : GsResource → Bool) (rs : List GsResource) (s s' : UpState),
      opts.ignore_errors = true →
      upsertList opts af rs s = .ok s' →
      ∀ r ∈ rs, af r = true → failInfo r ∈ s'.infos := by
  intro opts af rs
  induction rs with
  | nil => intro s s' _ _ r hr; cases hr
  | cons r0 rest ih =>
    intro s s' hig h r hr haf
    rcases hst : upsertStep opts af s r0 with e | s1
    · simp only [upsertList, hst] at h
      exact Except.noConfusion h
    · simp only [upsertList, hst] at h
      rcases List.mem_cons.1 hr with hr0 | hr0
      · subst hr0
        rcases upsertStep_ok_spec opts af s r s1 hst with ⟨_, _, _, _, hi1⟩
        rw [if_pos haf] at hi1
        have hmem : failInfo r ∈ s1.infos := by
          rw [hi1]
          exact List.mem_append_right _ (by simp)
        rcases (upsert_mono opts af rest s1 s' h).2.2.2.2 with ⟨ext, hext⟩
        rw [hext]
        exact List.mem_append_left _ hmem
      · exact ih s1 s' hig h r hr0 haf

/-- A run whose updated counter did not move created a row (from the
resource's own metadata) for every non-failing resource. -/
theorem upsert_updated_const :
    ∀ (opts : SlurpOpts) (af : GsResource → Bool) (rs : List GsResource) (s s' : UpState),
      upsertList opts af rs s = .ok s' →
      s'.updated = s.updated →
      s'.created = s.created + rs.countP (fun r => !(af r)) ∧
      (∀ r ∈ rs, af r = false → ∃ u, mkLayer opts.owner r u ∈ s'.layers) := by
  intro opts af rs
  induction rs with
  | nil =>
    intro s s' h _
    simp only [upsertList, Except.ok.injEq] at h
    subst h
    exact ⟨by simp, fun r hr => by cases hr⟩
  | cons r0 rest ih =>
    intro s s' h hupd
    rcases hst : upsertStep opts af s r0 with e | s1
    · simp only [upsertList, hst] at h
      exact Except.noConfusion h
    · simp only [upsertList, hst] at h
      rcases upsertStep_ok_spec opts af s r0 s1 hst with ⟨hl1, hc1, hu1, _, _⟩
      cases haf : af r0 with
      | true =>
        rw [haf] at hc1 hu1
        simp at hc1 hu1
        have hupd1 : s'.updated = s1.updated := by rw [hu1, hupd]
        rcases ih s1 s' h hupd1 with ⟨hcr, hmem⟩
        constructor
        · rw [hcr, hc1, List.countP_cons]
          simp [haf]
        · intro r hr hraf
          rcases List.mem_cons.1 hr with hr0 | hr0
          · subst hr0; rw [haf] at hraf; cases hraf
          · exact hmem r hr0 hraf
      | false =>
        rw [haf] at hc1 hu1
        by_cases hhit : s.layers.any (fun l => l.name == r0.name) = true
        · exfalso
          rw [hhit] at hu1
          simp at hu1
          have hmono := (upsert_mono opts af rest s1 s' h).2.1
          rw [hu1] at hmono
          omega
        · have hhitf : s.layers.any (fun l => l.name == r0.name) = false := by
            cases hv : s.layers.any (fun l => l.name == r0.name)
            · rfl
            · exact absurd hv hhit
          rw [hhitf] at hc1 hu1 hl1
          simp at hc1 hu1 hl1
          have hupd1 : s'.updated = s1.updated := by rw [hu1, hupd]
          rcases ih s1 s' h hupd1 with ⟨hcr, hmem⟩
          constructor
          · rw [hcr, hc1, List.countP_cons]
            simp [haf]
            omega
          · intro r hr hraf
            rcases List.mem_cons.1 hr with hr0 | hr0
            · subst hr0
              refine ⟨s.ctr, ?_⟩
              rcases (upsert_mono opts af rest s1 s' h).2.2.2.1 with ⟨ext, hext⟩
              rw [hext, hl1]
              exact List.mem_append_left _ (List.mem_append_right _ (by simp))
            · exact hmem r hr0 hraf

/-- A run in which every non-failing resource already has a row of its name
creates nothing, updates exactly the non-failing resources, and — when no
resource fails — leaves the table unchanged. -/
theorem upsert_all_hit :
    ∀ (opts : SlurpOpts) (af : GsResource → Bool) (rs : List GsResource) (s s' : UpState),
      upsertList opts af rs s = .ok s' →
      (∀ r ∈ rs, af r = false → ∃ l ∈ s.layers, l.name = r.name) →
      s'.created = s.created ∧
      s'.updated = s.updated + rs.countP (fun r => !(af r)) ∧
      ((∀ r ∈ rs, af r = false) → s'.layers = s.layers) := by
  intro opts af rs
  induction rs with
  | nil =>
    intro s s' h _
    simp only [upsertList, Except.ok.injEq] at h
    subst h
    exact ⟨rfl, by simp, fun _ => rfl⟩
  | cons r0 rest ih =>
    intro s s' h hpres
    rcases hst : upsertStep opts af s r0 with e | s1
    · simp only [upsertList, hst] at h
      exact Except.noConfusion h
    · simp only [upsertList, hst] at h
      rcases upsertStep_ok_spec opts af s r0 s1 hst with ⟨hl1, hc1, hu1, _, _⟩
      cases haf : af r0 with
      | true =>
        rw [haf] at hc1 hu1
        simp at hc1 hu1
        have hlgrow : ∀ l ∈ s.layers, l ∈ s1.layers := by
          intro l hl
          rw [hl1]
          split
          · exact hl
          · exact List.mem_append_left _ hl
        have hpres1 : ∀ r ∈ rest, af r = false → ∃ l ∈ s1.layers, l.name = r.name := by
          intro r hr hraf
          rcases hpres r (by simp [hr]) hraf with ⟨l, hl, hn⟩
          exact ⟨l, hlgrow l hl, hn⟩
        rcases ih s1 s' h hpres1 with ⟨hcr, hup, _⟩
        refine ⟨by rw [hcr, hc1], ?_, ?_⟩
        · rw [hup, hu1, List.countP_cons]
          simp [haf]
        · intro hall
          have := hall r0 (by simp)
          rw [haf] at this
          cases this
      | false =>
        have hhit : s.layers.any (fun l => l.name == r0.name) = true := by
          rcases hpres r0 (by simp) haf with ⟨l, hl, hn⟩
          exact List.any_eq_true.2 ⟨l, hl, by simpa using hn⟩
        rw [haf, hhit] at hc1 hu1
        rw [hhit] at hl1
        simp at hc1 hu1 hl1
        have hpres1 : ∀ r ∈ rest, af r = false → ∃ l ∈ s1.layers, l.name = r.name := by
          intro r hr hraf
          rcases hpres r (by simp [hr]) hraf with ⟨l, hl, hn⟩
          exact ⟨l, by rw [hl1]; exact hl, hn⟩
        rcases ih s1 s' h hpres1 with ⟨hcr, hup, hsame⟩
        refine ⟨by rw [hcr, hc1], ?_, ?_⟩
        · rw [hup, hu1, List.countP_cons]
          simp [haf]
          omega
        · intro hall
          rw [hsame (fun r hr => hall r (by simp [hr])), hl1]

/-- The deletion pass only removes rows. -/
theorem deletePass_subset :
    ∀ (df : LayerRec → Bool) (cs st : List LayerRec) (l : LayerRec),
      l ∈ (deletePass df st cs).1 → l ∈ st := by
  intro df cs
  induction cs with
  | nil => intro st l h; exact h
  | cons c cs' ih =>
    intro st l h
    simp only [deletePass] at h
    split at h
    · exact ih st l h
    · exact List.mem_of_mem_erase (ih (st.erase c) l h)

/-- A row different from every candidate survives the deletion pass. -/
theorem deletePass_mem :
    ∀ (df : LayerRec → Bool) (cs st : List LayerRec) (l : LayerRec),
      l ∈ st → (∀ c ∈ cs, l ≠ c) → l ∈ (deletePass df st cs).1 := by
  intro df cs
  induction cs with
  | nil => intro st l hl _; exact hl
  | cons c cs' ih =>
    intro st l hl hne
    simp only [deletePass]
    split
    · exact ih st l hl (fun d hd => hne d (by simp [hd]))
    · refine ih (st.erase c) l ?_ (fun d hd => hne d (by simp [hd]))
      exact (List.mem_erase_of_ne (hne c (by simp))).2 hl

/-- A deletion candidate matches no snapshot resource. -/
theorem mem_cand_not_match :
    ∀ (q : List LayerRec) (snap : List GsResource) (c : LayerRec),
      c ∈ deletionCandidates q snap → snap.any (fullMatch c) = false := by
  intro q snap c h
  have h2 := (List.mem_filter.1 h).2
  simpa using h2

/-- The upsert working set is contained in the deletion-pass snapshot. -/
theorem snapshot_mem_of_filtered :
    ∀ (opts : SlurpOpts) (rs : List GsResource) (r : GsResource),
      r ∈ filteredResources opts rs → r ∈ snapshotFor opts.skip_unadvertised rs := by
  intro opts rs r h
  cases hsk : opts.skip_unadvertised <;>
    simp [filteredResources, snapshotFor, hsk, List.mem_filter] at h ⊢ <;> tauto

/-- The row built from a resource fully matches that resource. -/
theorem fullMatch_mkLayer :
    ∀ (ow : Option String) (r : GsResource) (u : Nat),
      fullMatch (mkLayer ow r u) r = true := by
  intro ow r u
  simp [fullMatch, mkLayer]

/-- A row matched by some snapshot resource survives the deletion pass run
over the candidates of any query. -/
theorem deletePass_keeps_matched :
    ∀ (df : LayerRec → Bool) (snap : List GsResource) (q st : List LayerRec) (l : LayerRec),
      l ∈ st → snap.any (fullMatch l) = true →
      l ∈ (deletePass df st (deletionCandidates q snap)).1 := by
  intro df snap q st l hl hmatch
  apply deletePass_mem df _ st l hl
  intro c hc heq
  rw [heq] at hmatch
  rw [mem_cand_not_match q snap c hc] at hmatch
  cases hmatch

/-- C6: in `gs_slurp`, an exception while processing one resource is
caught: with tolerate-errors set the run completes, the item is recorded
as failed with the captured error, and every resource of the filtered set
still gets its report entry; with tolerate-errors unset the run aborts
immediately, propagating the wrapping error of the first failing
resource. -/
theorem C6_error_isolation :
    ∀ (af : GsResource → Bool) (df : LayerRec → Bool) (cat : GsCatalog) (opts : SlurpOpts)
      (st0 : List LayerRec) (c0 : Nat) (rs : List GsResource) (wsV : WsVar) (stV : StoreVar)
      (pre post : List GsResource) (r : GsResource),
      resolveScope cat opts = .ok (rs, wsV, stV) →
      filteredResources opts rs = pre ++ r :: post →
      (∀ p ∈ pre, af p = false) →
      af r = true →
      ((opts.ignore_errors = false →
          gs_slurp af df cat opts st0 c0 = .error (failMsg r)) ∧
       (opts.ignore_errors = true →
          ∃ res, gs_slurp af df cat opts st0 c0 = .ok res ∧
            failInfo r ∈ res.output.layers ∧
            res.output.layers.length = (filteredResources opts rs).length)) := by
  intro af df cat opts st0 c0 rs wsV stV pre post r hres hfres hpre haf
  constructor
  · intro hig
    have herr := upsert_strict_error_list opts af pre post r
      ⟨st0, c0, [], 0, 0, 0, stV, wsV⟩ hig hpre haf
    rw [← hfres] at herr
    simp only [gs_slurp, hres, herr]
  · intro hig
    rcases upsert_total opts af (filteredResources opts rs)
      ⟨st0, c0, [], 0, 0, 0, stV, wsV⟩ (Or.inl hig) with ⟨s, hup⟩
    have hfail := upsert_fail_info opts af _ _ _ hig hup r (by rw [hfres]; simp) haf
    have hlen := (upsert_accounting opts af _ _ _ hup).2.2
    cases hrd : opts.remove_deleted
    · refine ⟨⟨s.layers, s.ctr, ⟨⟨s.failed, s.updated, s.created, 0⟩, s.infos, []⟩⟩, ?_, ?_, ?_⟩
      · simp only [gs_slurp, hres, hup, hrd]
        rfl
      · exact hfail
      · simpa using hlen
    · refine ⟨⟨(deletePass df s.layers
          (deletionCandidates
            (deletionQuery s.layers (wsFilterOf wsV) (storeFilterOf s.storeVar))
            (snapshotFor opts.skip_unadvertised rs))).1, s.ctr,
          ⟨⟨s.failed, s.updated, s.created,
            (deletePass df s.layers
              (deletionCandidates
                (deletionQuery s.layers (wsFilterOf wsV) (storeFilterOf s.storeVar))
                (snapshotFor opts.skip_unadvertised rs))).2.2⟩, s.infos,
            (deletePass df s.layers
              (deletionCandidates
                (deletionQuery s.layers (wsFilterOf wsV) (storeFilterOf s.storeVar))
                (snapshotFor opts.skip_unadvertised rs))).2.1⟩⟩, ?_, hfail,
          by simpa using hlen⟩
      simp only [gs_slurp, hres, hup, hrd]
      rfl

/-- C6 witness: in strict mode the run on a catalog whose first filtered
resource fails aborts with the wrapping message. -/
theorem C6_witness :
    gs_slurp exAfA noDf exCatAB exOptsStrict [] 0 = .error (failMsg exResA) :=
  (C6_error_isolation exAfA noDf exCatAB exOptsStrict [] 0 exCatAB.resources
    .wvNone .svNone [] [exResB] exResA rfl (by rfl)
    (fun p hp => absurd hp (List.not_mem_nil p)) rfl).1 rfl

/-- C10: with tolerate-errors set, every resource of the filtered upsert
set contributes exactly one report entry (in input order, carrying its
name) and exactly one counter increment, so created + updated + failed
equals the size of the filtered set and the length of the layers list. -/
theorem C10_accounting :
    ∀ (af : GsResource → Bool) (df : LayerRec → Bool) (cat : GsCatalog) (opts : SlurpOpts)
      (st0 : List LayerRec) (c0 : Nat) (rs : List GsResource) (wsV : WsVar) (stV : StoreVar)
      (res : SlurpResult),
      opts.ignore_errors = true →
      resolveScope cat opts = .ok (rs, wsV, stV) →
      gs_slurp af df cat opts st0 c0 = .ok res →
      res.output.stats.created + res.output.stats.updated + res.output.stats.failed =
        (filteredResources opts rs).length ∧
      res.output.layers.map (fun i => i.name) =
        (filteredResources opts rs).map (fun r => r.name) ∧
      res.output.layers.length = (filteredResources opts rs).length := by
  intro af df cat opts st0 c0 rs wsV stV res _hig hres hrun
  simp only [gs_slurp, hres] at hrun
  rcases hup : upsertList opts af (filteredResources opts rs)
      ⟨st0, c0, [], 0, 0, 0, stV, wsV⟩ with e | s
  · rw [hup] at hrun
    exact Except.noConfusion hrun
  · rw [hup] at hrun
    rcases upsert_accounting opts af _ _ _ hup with ⟨hsum, hmap, hlen⟩
    cases hrd : opts.remove_deleted <;> rw [hrd] at hrun <;> simp only [Bool.false_eq_true,
      if_false, if_true, Except.ok.injEq] at hrun <;> subst hrun <;>
      exact ⟨by simpa using hsum, by simpa using hmap, by simpa using hlen⟩

/-- C10 witness: the concrete tolerant run over resources `a` (failing) and
`b` against a stale table reports one entry per resource and counters
summing to two. -/
theorem C10_witness :
    c10res.output.stats.created + c10res.output.stats.updated + c10res.output.stats.failed =
      (filteredResources exOptsPlain exCatAB.resources).length ∧
    c10res.output.layers.map (fun i => i.name) =
      (filteredResources exOptsPlain exCatAB.resources).map (fun r => r.name) ∧
    c10res.output.layers.length = (filteredResources exOptsPlain exCatAB.resources).length :=
  C10_accounting exAfA noDf exCatAB exOptsPlain [exJunkA] 0 exCatAB.resources
    .wvNone .svNone c10res rfl rfl (by rfl)

/-- C4 (amended): if a `gs_slurp` run reports created = N and updated = 0,
a second run against the identical catalog and the resulting local table
completes and reports created = 0 and updated = N; moreover, when the first
run reported failed = 0, the second run adds no `Layer` row.  (Without the
failed = 0 proviso the second run can physically insert a row: a resource
failing attribute recalculation leaves the row of a stale homonym in place
on the first run, the remove-deleted pass may then delete that stale row,
and the second run re-inserts before failing again — see the
counterexample.) -/
theorem C4_amended :
    ∀ (af : GsResource → Bool) (df : LayerRec → Bool) (cat : GsCatalog) (opts : SlurpOpts)
      (st0 : List LayerRec) (c0 : Nat) (res1 : SlurpResult),
      gs_slurp af df cat opts st0 c0 = .ok res1 →
      res1.output.stats.updated = 0 →
      ∃ res2, gs_slurp af df cat opts res1.layers res1.ctr = .ok res2 ∧
        res2.output.stats.created = 0 ∧
        res2.output.stats.updated = res1.output.stats.created ∧
        (res1.output.stats.failed = 0 → ∀ l ∈ res2.layers, l ∈ res1.layers) := by
  intro af df cat opts st0 c0 res1 h1 hupd0
  rcases hres : resolveScope cat opts with e | ⟨rs, wsV, stV⟩
  · simp only [gs_slurp, hres] at h1
    exact Except.noConfusion h1
  · simp only [gs_slurp, hres] at h1
    rcases hup : upsertList opts af (filteredResources opts rs)
        ⟨st0, c0, [], 0, 0, 0, stV, wsV⟩ with e | s
    · rw [hup] at h1
      exact Except.noConfusion h1
    · rw [hup] at h1
      have hnoaf_or : opts.ignore_errors = true ∨
          ∀ r ∈ filteredResources opts rs, af r = false := by
        cases hig : opts.ignore_errors
        · exact Or.inr (upsert_strict_no_af opts af _ _ _ hig hup)
        · exact Or.inl rfl
      rcases upsert_total opts af (filteredResources opts rs)
          ⟨res1.layers, res1.ctr, [], 0, 0, 0, stV, wsV⟩ hnoaf_or with ⟨s2, hup2⟩
      cases hrd : opts.remove_deleted <;> rw [hrd] at h1 <;>
        simp only [Bool.false_eq_true, if_false, if_true, Except.ok.injEq] at h1 <;>
        subst h1
      -- remove_deleted = false
      case false =>
        have hU : s.updated = 0 := hupd0
        have hsfc := upsert_failed_count opts af (filteredResources opts rs) _ _ hup
        rcases upsert_updated_const opts af (filteredResources opts rs) _ _ hup hU
          with ⟨hcr, hmk⟩
        have hkeep : ∀ r ∈ filteredResources opts rs, af r = false →
            ∃ l ∈ s.layers, l.name = r.name := by
          intro r hr hraf
          rcases hmk r hr hraf with ⟨u, hm⟩
          exact ⟨mkLayer opts.owner r u, hm, rfl⟩
        rcases upsert_all_hit opts af (filteredResources opts rs) _ _ hup2 hkeep
          with ⟨hc2, hu2, hsame2⟩
        have hnoaf_of_failed : (0 : Nat) + 0 + s.failed ≠ 0 ∨
            ∀ r ∈ filteredResources opts rs, af r = false := by
          by_cases hz : s.failed = 0
          · right
            intro r hr
            have hcz : (filteredResources opts rs).countP (fun r => af r) = 0 := by
              simp at hsfc
              omega
            have := List.countP_eq_zero.1 hcz r hr
            cases hv : af r
            · rfl
            · exact absurd hv this
          · left
            omega
        refine ⟨⟨s2.layers, s2.ctr, ⟨⟨s2.failed, s2.updated, s2.created, 0⟩, s2.infos, []⟩⟩,
          ?_, ?_, ?_, ?_⟩
        · simp only [gs_slurp, hres, hup2, hrd]
          rfl
        · simpa using hc2
        · have h1' : s2.updated =
              (filteredResources opts rs).countP (fun r => !(af r)) := by simpa using hu2
          have h2' : s.created =
              (filteredResources opts rs).countP (fun r => !(af r)) := by simpa using hcr
          simp only [h1', h2']
        · intro hf0
          have hsf : s.failed = 0 := hf0
          have hnoaf : ∀ r ∈ filteredResources opts rs, af r = false := by
            rcases hnoaf_of_failed with h | h
            · exact absurd (by simpa using hsf) (by simpa using h)
            · exact h
          have hlay := hsame2 hnoaf
          intro l hl
          have : l ∈ s2.layers := hl
          rw [hlay] at this
          exact this
      -- remove_deleted = true
      case true =>
        have hU : s.updated = 0 := hupd0
        have hsfc := upsert_failed_count opts af (filteredResources opts rs) _ _ hup
        rcases upsert_updated_const opts af (filteredResources opts rs) _ _ hup hU
          with ⟨hcr, hmk⟩
        have hkeep : ∀ r ∈ filteredResources opts rs, af r = false →
            ∃ l ∈ (deletePass df s.layers
              (deletionCandidates
                (deletionQuery s.layers (wsFilterOf wsV) (storeFilterOf s.storeVar))
                (snapshotFor opts.skip_unadvertised rs))).1, l.name = r.name := by
          intro r hr hraf
          rcases hmk r hr hraf with ⟨u, hm⟩
          refine ⟨mkLayer opts.owner r u, ?_, rfl⟩
          apply deletePass_keeps_matched
          · exact hm
          · exact List.any_eq_true.2 ⟨r, snapshot_mem_of_filtered opts rs r hr,
              fullMatch_mkLayer opts.owner r u⟩
        rcases upsert_all_hit opts af (filteredResources opts rs) _ _ hup2 hkeep
          with ⟨hc2, hu2, hsame2⟩
        have hnoaf_of_failed : s.failed ≠ 0 ∨
            ∀ r ∈ filteredResources opts rs, af r = false := by
          by_cases hz : s.failed = 0
          · right
            intro r hr
            have hcz : (filteredResources opts rs).countP (fun r => af r) = 0 := by
              simp at hsfc
              omega
            have := List.countP_eq_zero.1 hcz r hr
            cases hv : af r
            · rfl
            · exact absurd hv this
          · left
            exact hz
        refine ⟨⟨(deletePass df s2.layers
            (deletionCandidates
              (deletionQuery s2.layers (wsFilterOf wsV) (storeFilterOf s2.storeVar))
              (snapshotFor opts.skip_unadvertised rs))).1, s2.ctr,
            ⟨⟨s2.failed, s2.updated, s2.created,
              (deletePass df s2.layers
                (deletionCandidates
                  (deletionQuery s2.layers (wsFilterOf wsV) (storeFilterOf s2.storeVar))
                  (snapshotFor opts.skip_unadvertised rs))).2.2⟩, s2.infos,
              (deletePass df s2.layers
                (deletionCandidates
                  (deletionQuery s2.layers (wsFilterOf wsV) (storeFilterOf s2.storeVar))
                  (snapshotFor opts.skip_unadvertised rs))).2.1⟩⟩, ?_, ?_, ?_, ?_⟩
        · simp only [gs_slurp, hres, hup2, hrd]
          rfl
        · simpa using hc2
        · have h1' : s2.updated =
              (filteredResources opts rs).countP (fun r => !(af r)) := by simpa using hu2
          have h2' : s.created =
              (filteredResources opts rs).countP (fun r => !(af r)) := by simpa using hcr
          simp only [h1', h2']
        · intro hf0
          have hsf : s.failed = 0 := hf0
          have hnoaf : ∀ r ∈ filteredResources opts rs, af r = false := by
            rcases hnoaf_of_failed with h | h
            · exact absurd hsf h
            · exact h
          have hlay := hsame2 hnoaf
          intro l hl
          have hsub := deletePass_subset df _ _ l hl
          rw [hlay] at hsub
          exact hsub

/-- C4 counterexample: with remove-deleted requested, a catalog holding
resources `a` (failing attribute recalculation) and `b`, and a stale local
row named `a` in store `s1` with a junk workspace: the first run reports
created = 1, updated = 0 (and failed = 1, deleting the stale row), and the
second run — while reporting created = 0 and updated = 1 as the claim
states — physically inserts a new `Layer` row for `a` that was not in the
table left by the first run, contradicting "with no additional Layer
records created". -/
theorem C4_counterexample :
    c4res1.output.stats.created = 1 ∧
    c4res1.output.stats.updated = 0 ∧
    (gs_slurp exAfA noDf exCatAB exOptsRemove c4res1.layers c4res1.ctr).toOption =
      some c4res2 ∧
    c4res2.output.stats.created = 0 ∧
    c4res2.output.stats.updated = 1 ∧
    mkLayer none exResA 1 ∈ c4res2.layers ∧
    mkLayer none exResA 1 ∉ c4res1.layers := by decide

/-- C4 witness: a clean two-resource run (created = 2, updated = 0,
failed = 0) whose second run reports created = 0, updated = 2 and adds no
row. -/
theorem C4_amended_witness :
    ∃ res2, gs_slurp noAf noDf exCatAB exOptsPlain c4wres1.layers c4wres1.ctr = .ok res2 ∧
      res2.output.stats.created = 0 ∧
      res2.output.stats.updated = c4wres1.output.stats.created ∧
      (c4wres1.output.stats.failed = 0 → ∀ l ∈ res2.layers, l ∈ c4wres1.layers) :=
  C4_amended noAf noDf exCatAB exOptsPlain [] 0 c4wres1 (by rfl) (by rfl)
